import Mathlib

/-!
# Holtek HT1382 I2C real-time-clock driver (`rtc-ht1382.c`)

A shallow embedding of the driver's register codec and of its bus sequences.

* C integers: `int` values are `Int`, `unsigned`/`uint8_t` values are `Nat`, and every
  conversion between them is written out (`to_u32`, `to_int`, `% 256`).
* The I2C adapter is an explicit state machine `i2c_bus σ`; the driver functions thread
  the adapter state `σ` through their bus transactions.
* `bcd2bin`, `bin2bcd` and `rtc_valid_tm` are Linux kernel library routines that the
  driver calls; their bodies live in the kernel tree (`lib/bcd.c`, `drivers/rtc/lib.c`,
  `include/linux/rtc.h`), not in the driver file, and are transcribed from there.
-/

namespace HT1382

/-! ## Constants of the driver -/

/-- Seconds register address, `#define HT1382_SECONDS 0x00`. -/
def HT1382_SECONDS : Nat := 0x00
/-- Oscillator stop flag, `#define HT1382_STOP 0x80`. -/
def HT1382_STOP : Nat := 0x80
/-- The 12/24 flag, `#define HT1382_HOUR_1224 0x80`. -/
def HT1382_HOUR_1224 : Nat := 0x80
/-- The AM/PM flag, `#define HT1382_HOUR_AMPM 0x20`. -/
def HT1382_HOUR_AMPM : Nat := 0x20
/-- Status register address, `#define HT1382_ST1 0x07`. -/
def HT1382_ST1 : Nat := 0x07
/-- Write protect flag, `#define HT1382_WP 0x80`. -/
def HT1382_WP : Nat := 0x80

/-- The errno `EIO` of `linux/errno.h`. -/
def EIO : Int := 5
/-- The errno `EINVAL` of `linux/errno.h`. -/
def EINVAL : Int := 22
/-- The constant `INT_MAX` for the 32-bit `int` of the kernel. -/
def INT_MAX : Int := 2147483647

/-! ## C integer conversions -/

/-- Conversion of an `int` to `unsigned int` (reduction modulo `2^32`). -/
def to_u32 (x : Int) : Nat := (x % 4294967296).toNat

/-- Conversion of an `unsigned int` to `int` (two's complement reading of the low 32 bits). -/
def to_int (n : Nat) : Int :=
  if n % 4294967296 < 2147483648 then ((n % 4294967296 : Nat) : Int)
  else ((n % 4294967296 : Nat) : Int) - 4294967296

/-! ## Data model -/

/-- The `struct ht1382_regs`: the seven time registers, each a `uint8_t`, in wire order. -/
structure ht1382_regs where
  second : Nat
  minute : Nat
  hour : Nat
  date : Nat
  month : Nat
  day : Nat
  year : Nat
deriving DecidableEq, Repr

/-- The `struct rtc_time` of `linux/rtc.h`: nine `int` fields. -/
structure rtc_time where
  tm_sec : Int
  tm_min : Int
  tm_hour : Int
  tm_mday : Int
  tm_mon : Int
  tm_year : Int
  tm_wday : Int
  tm_yday : Int
  tm_isdst : Int
deriving DecidableEq, Repr

/-! ## Kernel library routines used by the driver -/

/-- Kernel `bcd2bin` (`lib/bcd.c`):
`unsigned _bcd2bin(unsigned char val) { return (val & 0x0f) + (val >> 4) * 10; }`.
The argument is converted to `unsigned char` at the call. -/
def bcd2bin (val : Nat) : Nat :=
  ((val % 256) &&& 0x0f) + ((val % 256) >>> 4) * 10

/-- Kernel `bin2bcd` (`lib/bcd.c`):
`unsigned char _bin2bcd(unsigned val) { return ((val / 10) << 4) + val % 10; }`.
The argument is an `unsigned`; the result is truncated to `unsigned char`. -/
def bin2bcd (val : Nat) : Nat :=
  ((((val / 10) <<< 4) + val % 10) % 4294967296) % 256

/-- Kernel `is_leap_year` (`include/linux/rtc.h`):
`(!(year % 4) && (year % 100)) || !(year % 400)`. -/
def is_leap_year (year : Nat) : Bool :=
  (year % 4 == 0 && year % 100 != 0) || year % 400 == 0

/-- Kernel table `rtc_days_in_month` (`drivers/rtc/lib.c`). -/
def rtc_days_in_month : List Nat := [31, 28, 31, 30, 31, 30, 31, 31, 30, 31, 30, 31]

/-- Kernel `rtc_month_days(unsigned int month, unsigned int year)`:
`rtc_days_in_month[month] + (is_leap_year(year) && month == 1)`. -/
def rtc_month_days (month year : Nat) : Int :=
  (rtc_days_in_month.getD month 0 : Nat) + (if is_leap_year year && month == 1 then 1 else 0)

/-- Kernel `rtc_valid_tm` (`drivers/rtc/lib.c`): returns `-EINVAL` when
`tm_year < 70 || tm_year > INT_MAX - 1900 || (unsigned)tm_mon >= 12 || tm_mday < 1 ||
tm_mday > rtc_month_days(tm_mon, (unsigned)tm_year + 1900) || (unsigned)tm_hour >= 24 ||
(unsigned)tm_min >= 60 || (unsigned)tm_sec >= 60`, and `0` otherwise.
The weekday is not examined. -/
def rtc_valid_tm (tm : rtc_time) : Int :=
  if tm.tm_year < 70 ∨ tm.tm_year > INT_MAX - 1900 ∨ to_u32 tm.tm_mon ≥ 12 ∨ tm.tm_mday < 1 ∨
      tm.tm_mday > rtc_month_days (to_u32 tm.tm_mon) ((to_u32 tm.tm_year + 1900) % 4294967296) ∨
      to_u32 tm.tm_hour ≥ 24 ∨ to_u32 tm.tm_min ≥ 60 ∨ to_u32 tm.tm_sec ≥ 60 then
    -EINVAL
  else 0

/-! ## Register codec -/

/-- The field conversion of `ht1382_rtc_read_time` (lines 87-98): the assignments to `*tm`
computed from the register block. `bcd2bin(x) - 1` and `bcd2bin(x) + 100` are `unsigned`
arithmetic whose result is stored into an `int`. -/
def read_time_fields (regs : ht1382_regs) (tm : rtc_time) : rtc_time :=
  { tm with
    tm_sec := to_int (bcd2bin (regs.second &&& 0x7f))
    tm_min := to_int (bcd2bin (regs.minute &&& 0x7f))
    tm_hour :=
      if regs.hour &&& HT1382_HOUR_1224 ≠ 0 then
        if regs.hour &&& HT1382_HOUR_AMPM ≠ 0 then
          to_int (bcd2bin (regs.hour &&& 0x1f)) + 12
        else to_int (bcd2bin (regs.hour &&& 0x1f))
      else to_int (bcd2bin (regs.hour &&& 0x3f))
    tm_mday := to_int (bcd2bin regs.date)
    tm_wday := to_int ((bcd2bin regs.day + 4294967295) % 4294967296)
    tm_mon := to_int ((bcd2bin regs.month + 4294967295) % 4294967296)
    tm_year := to_int ((bcd2bin regs.year + 100) % 4294967296) }

/-- The decoding part of `ht1382_rtc_read_time` (lines 87-103): field conversion followed
by `rtc_valid_tm`; returns the error code and the contents of `*tm` afterwards. -/
def read_time_decode (regs : ht1382_regs) (tm : rtc_time) : Int × rtc_time :=
  let tm1 := read_time_fields regs tm
  if rtc_valid_tm tm1 ≠ 0 then (-EINVAL, tm1) else (0, tm1)

/-- The register assignments of `ht1382_rtc_set_time` (lines 118-124). `tm_year % 100` is
the truncating C remainder; each `int` argument is converted to `unsigned` by `bin2bcd`. -/
def set_time_regs (tm : rtc_time) : ht1382_regs :=
  { second := bin2bcd (to_u32 tm.tm_sec)
    minute := bin2bcd (to_u32 tm.tm_min)
    hour := bin2bcd (to_u32 tm.tm_hour) ||| HT1382_HOUR_1224
    day := bin2bcd (to_u32 (tm.tm_wday + 1))
    date := bin2bcd (to_u32 tm.tm_mday)
    month := bin2bcd (to_u32 (tm.tm_mon + 1))
    year := bin2bcd (to_u32 (Int.tmod tm.tm_year 100)) }

/-- The byte image of `struct ht1382_regs` (seven consecutive `uint8_t`, no padding). -/
def regs_bytes (regs : ht1382_regs) : List Nat :=
  [regs.second, regs.minute, regs.hour, regs.date, regs.month, regs.day, regs.year]

/-- Reading a `struct ht1382_regs` out of a received byte buffer. -/
def regs_of_bytes (data : List Nat) : ht1382_regs :=
  { second := data.getD 0 0 % 256
    minute := data.getD 1 0 % 256
    hour := data.getD 2 0 % 256
    date := data.getD 3 0 % 256
    month := data.getD 4 0 % 256
    day := data.getD 5 0 % 256
    year := data.getD 6 0 % 256 }

/-! ## The I2C adapter and the bus primitives of the driver -/

/-- The I2C adapter seen from the driver, as a state machine over the adapter state `σ`.
* `master_send s buf` is `i2c_master_send(client, buf, count)` with `count = buf.length`:
  it returns the number of bytes sent or a negative errno, and the next state.
* `transfer_read s off len` is the two-message `i2c_transfer` of `ht1382_read` (one
  address byte `off` written, then `len` bytes read): it returns the number of messages
  transferred or a negative errno, the bytes left in the read buffer, and the next state. -/
structure i2c_bus (σ : Type) where
  master_send : σ → List Nat → Int × σ
  transfer_read : σ → Nat → Nat → Int × List Nat × σ

/-- The function `ht1382_read(dev, data, off, len)`: `off` and `len` are `uint8_t`. Returns `0` when
`i2c_transfer` reports both messages transferred and `-EIO` otherwise, together with the
buffer contents. -/
def ht1382_read {σ : Type} (bus : i2c_bus σ) (s : σ) (off len : Nat) : Int × List Nat × σ :=
  let r := bus.transfer_read s (off % 256) (len % 256)
  if r.1 = 2 then (0, r.2.1, r.2.2) else (- EIO, r.2.1, r.2.2)

/-- The function `ht1382_write(dev, data, off, len)`: `off` and `len` are `uint8_t`. The size guard
returns `-EIO` without touching the bus; otherwise the offset byte followed by the first
`len` bytes of `data` is handed to `i2c_master_send`, and the result is `0` exactly when
`len + 1` bytes are reported sent. -/
def ht1382_write {σ : Type} (bus : i2c_bus σ) (s : σ) (data : List Nat) (off len : Nat) :
    Int × σ :=
  if (len % 256) + 1 ≥ 64 * 1024 then (- EIO, s)
  else
    let buffer := (off % 256) :: data.take (len % 256)
    let r := bus.master_send s buffer
    if r.1 = ((len % 256 + 1 : Nat) : Int) then (0, r.2) else (- EIO, r.2)

/-! ## The RTC class operations -/

/-- The function `ht1382_rtc_read_time(dev, tm)`: returns the error code, the contents of `*tm` after
the call, and the adapter state. -/
def ht1382_rtc_read_time {σ : Type} (bus : i2c_bus σ) (s : σ) (tm : rtc_time) :
    Int × rtc_time × σ :=
  let r := ht1382_read bus s 0 7
  if r.1 ≠ 0 then (r.1, tm, r.2.2)
  else
    let d := read_time_decode (regs_of_bytes r.2.1) tm
    (d.1, d.2, r.2.2)

/-- The function `ht1382_rtc_set_time(dev, tm)`: returns the error code and the adapter state. -/
def ht1382_rtc_set_time {σ : Type} (bus : i2c_bus σ) (s : σ) (tm : rtc_time) : Int × σ :=
  let r1 := ht1382_write bus s [0] HT1382_ST1 1
  if r1.1 ≠ 0 then r1
  else
    let r2 := ht1382_write bus r1.2 (regs_bytes (set_time_regs tm)) 0 7
    if r2.1 ≠ 0 then r2
    else ht1382_write bus r2.2 [0x80] HT1382_ST1 1

/-! ## Observing the bus traffic -/

/-- One bus transaction as seen on the wire, with the adapter's return value. -/
inductive bus_event where
  | send (buf : List Nat) (ret : Int)
  | read (off len : Nat) (ret : Int)
deriving DecidableEq, Repr

/-- The buffers of the writes (`i2c_master_send` calls) in a trace, in order. -/
def sent_buffers : List bus_event → List (List Nat)
  | [] => []
  | bus_event.send buf _ :: es => buf :: sent_buffers es
  | bus_event.read _ _ _ :: es => sent_buffers es

/-- A write succeeded when the adapter reported the whole buffer sent. -/
def send_ok : bus_event → Bool
  | bus_event.send buf ret => ret == (buf.length : Int)
  | bus_event.read _ _ _ => false

/-- The same adapter with a recorder attached: every transaction is appended to a trace,
the adapter's own behaviour is unchanged. -/
def recording {σ : Type} (bus : i2c_bus σ) : i2c_bus (σ × List bus_event) where
  master_send := fun st buf =>
    let r := bus.master_send st.1 buf
    (r.1, (r.2, st.2 ++ [bus_event.send buf r.1]))
  transfer_read := fun st off len =>
    let r := bus.transfer_read st.1 off len
    (r.1, r.2.1, (r.2.2, st.2 ++ [bus_event.read off len r.1]))

/-! ## A mock register store -/

/-- Store `payload` into the register file `mem` starting at offset `off`; bytes that
would fall beyond the end of the register file are dropped. -/
def store_at (mem : List Nat) (off : Nat) (payload : List Nat) : List Nat :=
  (mem.take off ++ payload ++ mem.drop (off + payload.length)).take mem.length

/-- The mock register store: the state is the register file; every write succeeds and
stores its payload at its offset, every read succeeds and returns the stored bytes. -/
def mock_bus : i2c_bus (List Nat) where
  master_send := fun mem buf =>
    match buf with
    | [] => (0, mem)
    | off :: payload => ((buf.length : Int), store_at mem off payload)
  transfer_read := fun mem off len => (2, (mem.drop off).take len, mem)

/-- A bus on which every write fails from the `k`-th one on (`k` counted from 0); the
state counts the writes issued so far. -/
def failing_from (k : Nat) : i2c_bus Nat where
  master_send := fun n buf => (if n < k then (buf.length : Int) else - EIO, n + 1)
  transfer_read := fun n _ len => (2, List.replicate len 0, n)

/-- A scripted bus for evaluations: every read returns `read_ret` and a buffer filled
with the byte `fill`, every write returns `write_ret`; the state counts the transactions. -/
def scripted_bus (read_ret : Int) (fill : Nat) (write_ret : Int) : i2c_bus Nat where
  master_send := fun n _ => (write_ret, n + 1)
  transfer_read := fun n _ len => (read_ret, List.replicate len fill, n + 1)

/-! ## Device attach -/

/-- The errno `ENODEV` of `linux/errno.h`. -/
def ENODEV : Int := 19

/-- Outcome of `ht1382_probe`: the return value, whether `devm_rtc_device_register` was
called, and the adapter state. -/
structure probe_result (σ : Type) where
  ret : Int
  registered : Bool
  state : σ

/-- The function `ht1382_probe(client)`. `functionality` is the result of
`i2c_check_functionality(client->adapter, I2C_FUNC_I2C)`; `rtc` is the outcome of
`devm_rtc_device_register` should it be called: `none` for a valid device pointer,
`some err` for an error pointer with `PTR_ERR(rtc) = err`. The local `reg` is the byte
read; `reg &= ~HT1382_STOP` is computed on the promoted `int` and stored back into the
`uint8_t`. -/
def ht1382_probe {σ : Type} (bus : i2c_bus σ) (s : σ) (functionality : Bool)
    (rtc : Option Int) : probe_result σ :=
  if functionality = false then ⟨-ENODEV, false, s⟩
  else
    let r := ht1382_read bus s HT1382_SECONDS 1
    let reg := r.2.1.getD 0 0 % 256
    let w : Int × σ :=
      if r.1 = 0 ∧ reg &&& HT1382_STOP ≠ 0 then
        ht1382_write bus r.2.2 [(reg &&& (4294967295 - HT1382_STOP)) % 256] HT1382_SECONDS 1
      else (r.1, r.2.2)
    if w.1 ≠ 0 then ⟨w.1, false, w.2⟩
    else
      match rtc with
      | some err => ⟨err, true, w.2⟩
      | none => ⟨0, true, w.2⟩

/-! ## Sample inputs -/

/-- The all-zero `struct rtc_time`, used as the caller's buffer in evaluations. -/
def zero_time : rtc_time := ⟨0, 0, 0, 0, 0, 0, 0, 0, 0⟩

/-- The time 14:30:00 on 15 June 2023, weekday 3. -/
def sample_time : rtc_time :=
  { tm_sec := 0, tm_min := 30, tm_hour := 14, tm_mday := 15, tm_mon := 5, tm_year := 123,
    tm_wday := 3, tm_yday := 0, tm_isdst := 0 }

/-- The time 20:00:00 on 1 January 2000, weekday 6. -/
def evening_time : rtc_time :=
  { tm_sec := 0, tm_min := 0, tm_hour := 20, tm_mday := 1, tm_mon := 0, tm_year := 100,
    tm_wday := 6, tm_yday := 0, tm_isdst := 0 }

/-! ## The calendar, as the specification words it -/

/-- Gregorian leap year rule: divisible by 4 and not by 100, or divisible by 400. -/
def calendar_leap (year : Int) : Bool :=
  (year % 4 == 0 && year % 100 != 0) || year % 400 == 0

/-- Number of days of the 0-indexed month `mon` (0 = January) in calendar year `year`:
30 days for April, June, September and November, 28 or 29 for February, 31 otherwise. -/
def calendar_month_days (mon year : Int) : Int :=
  if mon = 1 then (if calendar_leap year then 29 else 28)
  else if mon = 3 ∨ mon = 5 ∨ mon = 8 ∨ mon = 10 then 30
  else 31

/-! ## Field decoding, as the specification words it -/

/-- BCD-to-binary conversion of a byte holding two packed decimal digits: ten times the
high nibble plus the low nibble. -/
def bcd_value (b : Nat) : Nat := 10 * (b / 16) + b % 16

/-- Hour decoding as the specification words it: if bit 7 of the hour byte is set, the
BCD-to-binary conversion of the byte masked with `0x1f`, plus 12 when bit 5 is set; if
bit 7 is clear, the BCD-to-binary conversion of the byte masked with `0x3f`. -/
def hour_of_byte (h : Nat) : Int :=
  if h.testBit 7 then
    if h.testBit 5 then (bcd_value (h &&& 0x1f) : Int) + 12 else (bcd_value (h &&& 0x1f) : Int)
  else (bcd_value (h &&& 0x3f) : Int)

/-! ## Arithmetic of the conversions -/

theorem to_int_of_lt {n : Nat} (h : n < 2147483648) : to_int n = (n : Int) := by
  have h1 : n % 4294967296 = n := Nat.mod_eq_of_lt (by omega)
  simp [to_int, h1, h]

theorem to_u32_ofNat {n : Nat} (h : n < 4294967296) : to_u32 (n : Int) = n := by
  unfold to_u32
  omega

theorem bcd2bin_eq (val : Nat) : bcd2bin val = val % 256 % 16 + val % 256 / 16 * 10 := by
  unfold bcd2bin
  have h1 : (val % 256) &&& 0x0f = val % 256 % 16 := Nat.and_pow_two_sub_one_eq_mod _ 4
  rw [h1, Nat.shiftRight_eq_div_pow]

theorem bcd2bin_le (val : Nat) : bcd2bin val ≤ 165 := by
  rw [bcd2bin_eq]
  omega

theorem bin2bcd_eq (val : Nat) : bin2bcd val = (val / 10 * 16 + val % 10) % 256 := by
  unfold bin2bcd
  rw [Nat.shiftLeft_eq]
  omega

theorem bin2bcd_of_lt_100 {val : Nat} (h : val < 100) :
    bin2bcd val = val / 10 * 16 + val % 10 := by
  rw [bin2bcd_eq]
  omega

theorem bcd2bin_bin2bcd {val : Nat} (h : val < 100) : bcd2bin (bin2bcd val) = val := by
  rw [bin2bcd_of_lt_100 h, bcd2bin_eq]
  omega

theorem and_0x7f (b : Nat) : b &&& 0x7f = b % 128 := Nat.and_pow_two_sub_one_eq_mod b 7

theorem and_0x3f (b : Nat) : b &&& 0x3f = b % 64 := Nat.and_pow_two_sub_one_eq_mod b 6

theorem and_0x1f (b : Nat) : b &&& 0x1f = b % 32 := Nat.and_pow_two_sub_one_eq_mod b 5

theorem and_0x80 (b : Nat) : b &&& 0x80 = b / 128 % 2 * 128 := by
  have h := Nat.and_two_pow b 7
  rw [Nat.testBit_to_div_mod] at h
  simp only [Nat.reducePow] at h
  rw [h]
  rcases Nat.mod_two_eq_zero_or_one (b / 128) with h2 | h2 <;> simp [h2]

theorem and_0x20 (b : Nat) : b &&& 0x20 = b / 32 % 2 * 32 := by
  have h := Nat.and_two_pow b 5
  rw [Nat.testBit_to_div_mod] at h
  simp only [Nat.reducePow] at h
  rw [h]
  rcases Nat.mod_two_eq_zero_or_one (b / 32) with h2 | h2 <;> simp [h2]

theorem or_0x80_of_lt {b : Nat} (h : b < 128) : b ||| 0x80 = b + 128 := by
  have h1 := Nat.mul_add_lt_is_or (i := 7) (b := b) (by simpa using h) 1
  simp only [Nat.reducePow, Nat.mul_one] at h1
  rw [Nat.or_comm, ← h1]
  omega

theorem and_0x80_ne_zero_iff (h : Nat) : h &&& 0x80 ≠ 0 ↔ h.testBit 7 = true := by
  rw [and_0x80, Nat.testBit_to_div_mod]
  simp only [Nat.reducePow, decide_eq_true_eq]
  omega

theorem and_0x20_ne_zero_iff (h : Nat) : h &&& 0x20 ≠ 0 ↔ h.testBit 5 = true := by
  rw [and_0x20, Nat.testBit_to_div_mod]
  simp only [Nat.reducePow, decide_eq_true_eq]
  omega

theorem to_int_bcd2bin {x : Nat} (h : x < 256) : to_int (bcd2bin x) = (bcd_value x : Int) := by
  have hle := bcd2bin_le x
  rw [to_int_of_lt (by omega), bcd2bin_eq]
  unfold bcd_value
  congr 1
  omega

theorem or_0x80_and_0x7f (b : Nat) : (b ||| 0x80) &&& 0x7f = b &&& 0x7f := by
  rw [Nat.and_distrib_right]
  have h : (0x80 : Nat) &&& 0x7f = 0 := by decide
  rw [h, Nat.or_zero]

theorem rtc_month_days_le (month year : Nat) : rtc_month_days month year ≤ 31 := by
  unfold rtc_month_days rtc_days_in_month
  by_cases h : month < 12
  · interval_cases month <;> simp
    split <;> omega
  · have h1 : month ≥ 12 := by omega
    rw [List.getD_eq_default _ _ (by simpa using h1)]
    have h2 : ¬ month = 1 := by omega
    simp [h2]

theorem rtc_valid_tm_eq_zero_iff (tm : rtc_time) :
    rtc_valid_tm tm = 0 ↔
      ¬ (tm.tm_year < 70 ∨ tm.tm_year > INT_MAX - 1900 ∨ to_u32 tm.tm_mon ≥ 12 ∨
        tm.tm_mday < 1 ∨
        tm.tm_mday >
          rtc_month_days (to_u32 tm.tm_mon) ((to_u32 tm.tm_year + 1900) % 4294967296) ∨
        to_u32 tm.tm_hour ≥ 24 ∨ to_u32 tm.tm_min ≥ 60 ∨ to_u32 tm.tm_sec ≥ 60) := by
  unfold rtc_valid_tm
  split
  · rename_i h
    simp only [h, not_true_eq_false, iff_false]
    decide
  · rename_i h
    simp only [h, not_false_eq_true]

theorem read_time_decode_fst (regs : ht1382_regs) (tm : rtc_time) :
    (read_time_decode regs tm).1 =
      if rtc_valid_tm (read_time_fields regs tm) = 0 then 0 else -EINVAL := by
  unfold read_time_decode
  by_cases h : rtc_valid_tm (read_time_fields regs tm) = 0 <;> simp [h]

theorem read_time_decode_snd (regs : ht1382_regs) (tm : rtc_time) :
    (read_time_decode regs tm).2 = read_time_fields regs tm := by
  unfold read_time_decode
  by_cases h : rtc_valid_tm (read_time_fields regs tm) = 0 <;> simp [h]

/-! ## The recorder does not disturb the driver -/

theorem ht1382_write_recording {σ : Type} (bus : i2c_bus σ) (s : σ) (tr : List bus_event)
    (data : List Nat) (off len : Nat) :
    ht1382_write (recording bus) (s, tr) data off len =
      ((ht1382_write bus s data off len).1,
        ((ht1382_write bus s data off len).2,
          tr ++ [bus_event.send ((off % 256) :: data.take (len % 256))
            (bus.master_send s ((off % 256) :: data.take (len % 256))).1])) := by
  have hg : ¬ (len % 256 + 1 ≥ 64 * 1024) := by omega
  simp only [ht1382_write, hg, if_false, recording]
  split <;> rfl

theorem ht1382_write_recording_eq {σ : Type} (bus : i2c_bus σ) (st : σ × List bus_event)
    (data : List Nat) (off len : Nat)
    (hoff : off < 256) (hlen : len < 256) (hdata : data.length = len) :
    ht1382_write (recording bus) st data off len =
      (if (bus.master_send st.1 (off :: data)).1 = ((len + 1 : Nat) : Int) then 0 else - EIO,
        (bus.master_send st.1 (off :: data)).2,
        st.2 ++ [bus_event.send (off :: data) (bus.master_send st.1 (off :: data)).1]) := by
  have hg : ¬ (len % 256 + 1 ≥ 64 * 1024) := by omega
  have h1 : off % 256 = off := Nat.mod_eq_of_lt hoff
  have h2 : len % 256 = len := Nat.mod_eq_of_lt hlen
  have h3 : data.take len = data := by rw [← hdata]; exact List.take_length _
  simp only [ht1382_write, hg, if_false]
  simp only [h1, h2, h3, recording]
  split <;> rfl

theorem set_time_recording_fail1 {σ : Type} (bus : i2c_bus σ) (s : σ) (tr : List bus_event)
    (tm : rtc_time) (h1 : (bus.master_send s [0x07, 0x00]).1 ≠ 2) :
    ht1382_rtc_set_time (recording bus) (s, tr) tm =
      (- EIO, (bus.master_send s [0x07, 0x00]).2,
        tr ++ [bus_event.send [0x07, 0x00] (bus.master_send s [0x07, 0x00]).1]) := by
  have a1 := fun st => ht1382_write_recording_eq bus st [0] HT1382_ST1 1 (by decide) (by decide) rfl
  have hE : (- EIO : Int) ≠ 0 := by decide
  simp only [HT1382_ST1] at a1
  simp only [ht1382_rtc_set_time, HT1382_ST1, a1]
  simp [h1, hE]

theorem set_time_recording_fail2 {σ : Type} (bus : i2c_bus σ) (s : σ) (tr : List bus_event)
    (tm : rtc_time) (h1 : (bus.master_send s [0x07, 0x00]).1 = 2)
    (h2 : (bus.master_send (bus.master_send s [0x07, 0x00]).2
      (0x00 :: regs_bytes (set_time_regs tm))).1 ≠ 8) :
    ht1382_rtc_set_time (recording bus) (s, tr) tm =
      (- EIO,
        (bus.master_send (bus.master_send s [0x07, 0x00]).2
          (0x00 :: regs_bytes (set_time_regs tm))).2,
        tr ++ [bus_event.send [0x07, 0x00] 2,
          bus_event.send (0x00 :: regs_bytes (set_time_regs tm))
            (bus.master_send (bus.master_send s [0x07, 0x00]).2
              (0x00 :: regs_bytes (set_time_regs tm))).1]) := by
  have a1 := fun st => ht1382_write_recording_eq bus st [0] HT1382_ST1 1 (by decide) (by decide) rfl
  have a2 := fun st => ht1382_write_recording_eq bus st (regs_bytes (set_time_regs tm)) 0 7
    (by decide) (by decide) rfl
  have hE : (- EIO : Int) ≠ 0 := by decide
  simp only [HT1382_ST1] at a1
  simp only [ht1382_rtc_set_time, HT1382_ST1, a1, a2]
  generalize regs_bytes (set_time_regs tm) = payload at *
  simp [h1, h2, hE]

theorem set_time_recording_pass2 {σ : Type} (bus : i2c_bus σ) (s : σ) (tr : List bus_event)
    (tm : rtc_time) (h1 : (bus.master_send s [0x07, 0x00]).1 = 2)
    (h2 : (bus.master_send (bus.master_send s [0x07, 0x00]).2
      (0x00 :: regs_bytes (set_time_regs tm))).1 = 8) :
    ht1382_rtc_set_time (recording bus) (s, tr) tm =
      (if (bus.master_send (bus.master_send (bus.master_send s [0x07, 0x00]).2
            (0x00 :: regs_bytes (set_time_regs tm))).2 [0x07, 0x80]).1 = 2 then 0 else - EIO,
        (bus.master_send (bus.master_send (bus.master_send s [0x07, 0x00]).2
            (0x00 :: regs_bytes (set_time_regs tm))).2 [0x07, 0x80]).2,
        tr ++ [bus_event.send [0x07, 0x00] 2,
          bus_event.send (0x00 :: regs_bytes (set_time_regs tm)) 8,
          bus_event.send [0x07, 0x80]
            (bus.master_send (bus.master_send (bus.master_send s [0x07, 0x00]).2
              (0x00 :: regs_bytes (set_time_regs tm))).2 [0x07, 0x80]).1]) := by
  have a1 := fun st => ht1382_write_recording_eq bus st [0] HT1382_ST1 1 (by decide) (by decide) rfl
  have a2 := fun st => ht1382_write_recording_eq bus st (regs_bytes (set_time_regs tm)) 0 7
    (by decide) (by decide) rfl
  have a3 := fun st => ht1382_write_recording_eq bus st [0x80] HT1382_ST1 1 (by decide) (by decide) rfl
  simp only [HT1382_ST1] at a1 a3
  simp only [ht1382_rtc_set_time, HT1382_ST1, a1, a2, a3]
  generalize regs_bytes (set_time_regs tm) = payload at *
  simp [h1, h2]

theorem set_time_recording_fst {σ : Type} (bus : i2c_bus σ) (s : σ) (tr : List bus_event)
    (tm : rtc_time) :
    (ht1382_rtc_set_time (recording bus) (s, tr) tm).1 = (ht1382_rtc_set_time bus s tm).1 ∧
    (ht1382_rtc_set_time (recording bus) (s, tr) tm).2.1 = (ht1382_rtc_set_time bus s tm).2 := by
  simp only [ht1382_rtc_set_time, ht1382_write_recording]
  split
  · exact ⟨rfl, rfl⟩
  · split <;> exact ⟨rfl, rfl⟩

/-! ## The decoder reads only the register block -/

theorem rtc_valid_tm_read_time_fields (regs : ht1382_regs) (tm tm0 : rtc_time) :
    rtc_valid_tm (read_time_fields regs tm) = rtc_valid_tm (read_time_fields regs tm0) := rfl

theorem read_time_decode_frame (regs : ht1382_regs) (tm tm0 : rtc_time) :
    read_time_decode regs tm =
      ((read_time_decode regs tm0).1,
        { (read_time_decode regs tm0).2 with
          tm_yday := tm.tm_yday, tm_isdst := tm.tm_isdst }) := by
  simp only [read_time_decode, rtc_valid_tm_read_time_fields regs tm tm0]
  split <;> simp [read_time_fields]


/-! ## Facts about the decoder used by several results -/

theorem read_time_fields_sec (regs : ht1382_regs) (tm : rtc_time) :
    (read_time_fields regs tm).tm_sec = to_int (bcd2bin (regs.second &&& 0x7f)) := by
  simp only [read_time_fields]

theorem read_time_fields_min (regs : ht1382_regs) (tm : rtc_time) :
    (read_time_fields regs tm).tm_min = to_int (bcd2bin (regs.minute &&& 0x7f)) := by
  simp only [read_time_fields]

theorem read_time_fields_hour (regs : ht1382_regs) (tm : rtc_time) :
    (read_time_fields regs tm).tm_hour =
      if regs.hour &&& HT1382_HOUR_1224 ≠ 0 then
        if regs.hour &&& HT1382_HOUR_AMPM ≠ 0 then
          to_int (bcd2bin (regs.hour &&& 0x1f)) + 12
        else to_int (bcd2bin (regs.hour &&& 0x1f))
      else to_int (bcd2bin (regs.hour &&& 0x3f)) := by
  simp only [read_time_fields]

theorem read_time_fields_mday (regs : ht1382_regs) (tm : rtc_time) :
    (read_time_fields regs tm).tm_mday = to_int (bcd2bin regs.date) := by
  simp only [read_time_fields]

theorem read_time_fields_wday (regs : ht1382_regs) (tm : rtc_time) :
    (read_time_fields regs tm).tm_wday =
      to_int ((bcd2bin regs.day + 4294967295) % 4294967296) := by
  simp only [read_time_fields]

theorem read_time_fields_mon (regs : ht1382_regs) (tm : rtc_time) :
    (read_time_fields regs tm).tm_mon =
      to_int ((bcd2bin regs.month + 4294967295) % 4294967296) := by
  simp only [read_time_fields]

theorem read_time_fields_year (regs : ht1382_regs) (tm : rtc_time) :
    (read_time_fields regs tm).tm_year = to_int ((bcd2bin regs.year + 100) % 4294967296) := by
  simp only [read_time_fields]

theorem read_time_decode_ne_zero_of {regs : ht1382_regs} {tm : rtc_time}
    (h : rtc_valid_tm (read_time_fields regs tm) ≠ 0) :
    (read_time_decode regs tm).1 = -EINVAL := by
  rw [read_time_decode_fst]
  simp [h]

theorem rtc_valid_tm_ne_zero_of_mday {tm : rtc_time} (h : 31 < tm.tm_mday) :
    rtc_valid_tm tm ≠ 0 := by
  intro h0
  rw [rtc_valid_tm_eq_zero_iff] at h0
  apply h0
  have := rtc_month_days_le (to_u32 tm.tm_mon) ((to_u32 tm.tm_year + 1900) % 4294967296)
  right; right; right; right; left
  omega

theorem rtc_valid_tm_ne_zero_of_mon {tm : rtc_time} (h : 12 ≤ tm.tm_mon)
    (h' : tm.tm_mon < 4294967296) : rtc_valid_tm tm ≠ 0 := by
  intro h0
  rw [rtc_valid_tm_eq_zero_iff] at h0
  apply h0
  right; right; left
  unfold to_u32
  omega

theorem ht1382_rtc_read_time_of_transfer {σ : Type} (bus : i2c_bus σ) (s : σ) (tm : rtc_time)
    (h : (bus.transfer_read s 0 7).1 = 2) :
    ht1382_rtc_read_time bus s tm =
      ((read_time_decode (regs_of_bytes (bus.transfer_read s 0 7).2.1) tm).1,
        (read_time_decode (regs_of_bytes (bus.transfer_read s 0 7).2.1) tm).2,
        (bus.transfer_read s 0 7).2.2) := by
  simp [ht1382_rtc_read_time, ht1382_read, h]

theorem rtc_month_days_eq_calendar {month : Nat} (h : month < 12) (year : Nat) :
    rtc_month_days month year = calendar_month_days (month : Int) (year : Int) := by
  have hl : is_leap_year year = calendar_leap (year : Int) := by
    unfold is_leap_year calendar_leap
    have e4 : ((year : Int) % 4 == 0) = (year % 4 == 0) := by
      rw [Bool.eq_iff_iff]; simp only [beq_iff_eq]; omega
    have e100 : ((year : Int) % 100 != 0) = (year % 100 != 0) := by
      rw [Bool.eq_iff_iff]; simp only [bne_iff_ne, ne_eq]; omega
    have e400 : ((year : Int) % 400 == 0) = (year % 400 == 0) := by
      rw [Bool.eq_iff_iff]; simp only [beq_iff_eq]; omega
    rw [e4, e100, e400]
  unfold rtc_month_days calendar_month_days rtc_days_in_month
  rw [hl]
  interval_cases month <;> simp
  split <;> rfl

theorem read_time_decode_second_congr (regs : ht1382_regs) (tm : rtc_time) (b c : Nat)
    (h : b &&& 0x7f = c &&& 0x7f) :
    read_time_decode { regs with second := b } tm =
      read_time_decode { regs with second := c } tm := by
  have e : read_time_fields { regs with second := b } tm =
      read_time_fields { regs with second := c } tm := by
    simp only [read_time_fields, h]
  simp only [read_time_decode, e]

/-! ## The attach handshake on a recorded bus -/

theorem clear_stop_eq {x : Nat} (hx : x < 256) :
    (x &&& (4294967295 - HT1382_STOP)) % 256 = x &&& 0x7f := by
  interval_cases x <;> rfl

theorem ht1382_read_recording {σ : Type} (bus : i2c_bus σ) (st : σ × List bus_event)
    (off len : Nat) :
    ht1382_read (recording bus) st off len =
      (if (bus.transfer_read st.1 (off % 256) (len % 256)).1 = 2 then 0 else - EIO,
        (bus.transfer_read st.1 (off % 256) (len % 256)).2.1,
        (bus.transfer_read st.1 (off % 256) (len % 256)).2.2,
        st.2 ++ [bus_event.read (off % 256) (len % 256)
          (bus.transfer_read st.1 (off % 256) (len % 256)).1]) := by
  simp only [ht1382_read, recording]
  split <;> rfl

theorem probe_recording_read_failed {σ : Type} (bus : i2c_bus σ) (s : σ)
    (tr : List bus_event) (rtc : Option Int) (h : (bus.transfer_read s 0 1).1 ≠ 2) :
    ht1382_probe (recording bus) (s, tr) true rtc =
      ⟨- EIO, false, (bus.transfer_read s 0 1).2.2,
        tr ++ [bus_event.read 0 1 (bus.transfer_read s 0 1).1]⟩ := by
  have hE : (- EIO : Int) ≠ 0 := by decide
  simp only [ht1382_probe, ht1382_read_recording, HT1382_SECONDS]
  simp [h, hE]

theorem probe_recording_running {σ : Type} (bus : i2c_bus σ) (s : σ)
    (tr : List bus_event) (rtc : Option Int) (h : (bus.transfer_read s 0 1).1 = 2)
    (hb : ((bus.transfer_read s 0 1).2.1.getD 0 0 % 256) &&& HT1382_STOP = 0) :
    ht1382_probe (recording bus) (s, tr) true rtc =
      ⟨rtc.getD 0, true, (bus.transfer_read s 0 1).2.2, tr ++ [bus_event.read 0 1 2]⟩ := by
  simp only [ht1382_probe, ht1382_read_recording, HT1382_SECONDS, Nat.zero_mod, Nat.one_mod]
  generalize (bus.transfer_read s 0 1).2.1.getD 0 0 % 256 = b at hb ⊢
  cases rtc <;> simp [h, hb]

theorem probe_recording_halted {σ : Type} (bus : i2c_bus σ) (s : σ)
    (tr : List bus_event) (rtc : Option Int) (h : (bus.transfer_read s 0 1).1 = 2)
    (hb : ((bus.transfer_read s 0 1).2.1.getD 0 0 % 256) &&& HT1382_STOP ≠ 0) :
    ht1382_probe (recording bus) (s, tr) true rtc =
      if (bus.master_send (bus.transfer_read s 0 1).2.2
          [0, ((bus.transfer_read s 0 1).2.1.getD 0 0 % 256) &&& 0x7f]).1 = 2 then
        ⟨rtc.getD 0, true,
          (bus.master_send (bus.transfer_read s 0 1).2.2
            [0, ((bus.transfer_read s 0 1).2.1.getD 0 0 % 256) &&& 0x7f]).2,
          tr ++ [bus_event.read 0 1 2,
            bus_event.send [0, ((bus.transfer_read s 0 1).2.1.getD 0 0 % 256) &&& 0x7f] 2]⟩
      else
        ⟨- EIO, false,
          (bus.master_send (bus.transfer_read s 0 1).2.2
            [0, ((bus.transfer_read s 0 1).2.1.getD 0 0 % 256) &&& 0x7f]).2,
          tr ++ [bus_event.read 0 1 2,
            bus_event.send [0, ((bus.transfer_read s 0 1).2.1.getD 0 0 % 256) &&& 0x7f]
              (bus.master_send (bus.transfer_read s 0 1).2.2
                [0, ((bus.transfer_read s 0 1).2.1.getD 0 0 % 256) &&& 0x7f]).1]⟩ := by
  have hE : (- EIO : Int) ≠ 0 := by decide
  have hlt : (bus.transfer_read s 0 1).2.1.getD 0 0 % 256 < 256 := Nat.mod_lt _ (by decide)
  have hw := fun st : σ × List bus_event =>
    ht1382_write_recording_eq bus st
      [((bus.transfer_read s 0 1).2.1.getD 0 0 % 256) &&& 0x7f] 0 1 (by decide) (by decide) rfl
  simp only [ht1382_probe, ht1382_read_recording, HT1382_SECONDS, Nat.zero_mod, Nat.one_mod,
    clear_stop_eq hlt, hw]
  generalize (bus.transfer_read s 0 1).2.1.getD 0 0 % 256 = b at hb ⊢
  by_cases hs : (bus.master_send (bus.transfer_read s 0 1).2.2 [0, b &&& 0x7f]).1 = 2
  · cases rtc <;> simp [h, hb, hs]
  · simp [h, hb, hs, hE]

theorem ht1382_write_eq {σ : Type} (bus : i2c_bus σ) (s : σ) (data : List Nat) (off len : Nat)
    (hoff : off < 256) (hlen : len < 256) (hdata : data.length = len) :
    ht1382_write bus s data off len =
      (if (bus.master_send s (off :: data)).1 = ((len + 1 : Nat) : Int) then 0 else - EIO,
        (bus.master_send s (off :: data)).2) := by
  have hg : ¬ (len % 256 + 1 ≥ 64 * 1024) := by omega
  have h1 : off % 256 = off := Nat.mod_eq_of_lt hoff
  have h2 : len % 256 = len := Nat.mod_eq_of_lt hlen
  have h3 : data.take len = data := by rw [← hdata]; exact List.take_length _
  simp only [ht1382_write, hg, if_false]
  simp only [h1, h2, h3]
  split <;> rfl

theorem ht1382_read_eq {σ : Type} (bus : i2c_bus σ) (s : σ) (off len : Nat) :
    ht1382_read bus s off len =
      (if (bus.transfer_read s (off % 256) (len % 256)).1 = 2 then 0 else - EIO,
        (bus.transfer_read s (off % 256) (len % 256)).2.1,
        (bus.transfer_read s (off % 256) (len % 256)).2.2) := by
  simp only [ht1382_read]
  split <;> rfl

theorem probe_read_failed {σ : Type} (bus : i2c_bus σ) (s : σ) (rtc : Option Int)
    (h : (bus.transfer_read s 0 1).1 ≠ 2) :
    ht1382_probe bus s true rtc = ⟨- EIO, false, (bus.transfer_read s 0 1).2.2⟩ := by
  have hE : (- EIO : Int) ≠ 0 := by decide
  simp only [ht1382_probe, ht1382_read_eq, HT1382_SECONDS]
  simp [h, hE]

theorem probe_running {σ : Type} (bus : i2c_bus σ) (s : σ) (rtc : Option Int)
    (h : (bus.transfer_read s 0 1).1 = 2)
    (hb : ((bus.transfer_read s 0 1).2.1.getD 0 0 % 256) &&& HT1382_STOP = 0) :
    ht1382_probe bus s true rtc = ⟨rtc.getD 0, true, (bus.transfer_read s 0 1).2.2⟩ := by
  simp only [ht1382_probe, ht1382_read_eq, HT1382_SECONDS, Nat.zero_mod, Nat.one_mod]
  generalize (bus.transfer_read s 0 1).2.1.getD 0 0 % 256 = b at hb ⊢
  cases rtc <;> simp [h, hb]

theorem probe_halted {σ : Type} (bus : i2c_bus σ) (s : σ) (rtc : Option Int)
    (h : (bus.transfer_read s 0 1).1 = 2)
    (hb : ((bus.transfer_read s 0 1).2.1.getD 0 0 % 256) &&& HT1382_STOP ≠ 0) :
    ht1382_probe bus s true rtc =
      if (bus.master_send (bus.transfer_read s 0 1).2.2
          [0, ((bus.transfer_read s 0 1).2.1.getD 0 0 % 256) &&& 0x7f]).1 = 2 then
        ⟨rtc.getD 0, true,
          (bus.master_send (bus.transfer_read s 0 1).2.2
            [0, ((bus.transfer_read s 0 1).2.1.getD 0 0 % 256) &&& 0x7f]).2⟩
      else
        ⟨- EIO, false,
          (bus.master_send (bus.transfer_read s 0 1).2.2
            [0, ((bus.transfer_read s 0 1).2.1.getD 0 0 % 256) &&& 0x7f]).2⟩ := by
  have hE : (- EIO : Int) ≠ 0 := by decide
  have hlt : (bus.transfer_read s 0 1).2.1.getD 0 0 % 256 < 256 := Nat.mod_lt _ (by decide)
  have hw := fun st : σ =>
    ht1382_write_eq bus st
      [((bus.transfer_read s 0 1).2.1.getD 0 0 % 256) &&& 0x7f] 0 1 (by decide) (by decide) rfl
  simp only [ht1382_probe, ht1382_read_eq, HT1382_SECONDS, Nat.zero_mod, Nat.one_mod,
    clear_stop_eq hlt, hw]
  generalize (bus.transfer_read s 0 1).2.1.getD 0 0 % 256 = b at hb ⊢
  by_cases hs : (bus.master_send (bus.transfer_read s 0 1).2.2 [0, b &&& 0x7f]).1 = 2
  · cases rtc <;> simp [h, hb, hs]
  · simp [h, hb, hs, hE]

theorem and_stop_eq_zero_iff (b : Nat) : b &&& HT1382_STOP = 0 ↔ b.testBit 7 = false := by
  have h := and_0x80_ne_zero_iff b
  unfold HT1382_STOP
  constructor
  · intro h0
    by_contra hc
    exact (h.2 (by simpa using hc)) h0
  · intro h0
    by_contra hc
    rw [h.1 hc] at h0
    exact absurd h0 (by decide)

/-! ## Further facts about the decoder and the bus primitives -/

theorem rtc_valid_tm_congr {a b : rtc_time} (hy : a.tm_year = b.tm_year)
    (hmon : a.tm_mon = b.tm_mon) (hmd : a.tm_mday = b.tm_mday) (hh : a.tm_hour = b.tm_hour)
    (hmin : a.tm_min = b.tm_min) (hs : a.tm_sec = b.tm_sec) :
    rtc_valid_tm a = rtc_valid_tm b := by
  unfold rtc_valid_tm
  rw [hy, hmon, hmd, hh, hmin, hs]

theorem read_time_fields_wday_eq (regs : ht1382_regs) (tm : rtc_time) :
    (read_time_fields regs tm).tm_wday = (bcd_value (regs.day % 256) : Int) - 1 := by
  rw [read_time_fields_wday]
  have hle := bcd2bin_le regs.day
  have he : bcd2bin regs.day = bcd_value (regs.day % 256) := by
    rw [bcd2bin_eq]; unfold bcd_value; omega
  rw [← he]
  unfold to_int
  split <;> omega

theorem ht1382_write_fst_cases {σ : Type} (bus : i2c_bus σ) (s : σ) (data : List Nat)
    (off len : Nat) :
    (ht1382_write bus s data off len).1 = 0 ∨ (ht1382_write bus s data off len).1 = - EIO := by
  simp only [ht1382_write]
  split
  · exact Or.inr rfl
  · split
    · exact Or.inl rfl
    · exact Or.inr rfl

theorem ht1382_rtc_read_time_recording {σ : Type} (bus : i2c_bus σ) (s : σ)
    (tr : List bus_event) (tm : rtc_time) :
    (ht1382_rtc_read_time (recording bus) (s, tr) tm).2.2.2 =
      tr ++ [bus_event.read 0 7 (bus.transfer_read s 0 7).1] := by
  simp only [ht1382_rtc_read_time, ht1382_read_recording]
  split <;> rfl

theorem ht1382_rtc_read_time_of_failure {σ : Type} (bus : i2c_bus σ) (s : σ) (tm : rtc_time)
    (h : (bus.transfer_read s 0 7).1 ≠ 2) :
    ht1382_rtc_read_time bus s tm = (- EIO, tm, (bus.transfer_read s 0 7).2.2) := by
  have hE : (- EIO : Int) ≠ 0 := by decide
  simp [ht1382_rtc_read_time, ht1382_read_eq, h, hE]

theorem read_time_fields_year_eq (regs : ht1382_regs) (tm : rtc_time) :
    (read_time_fields regs tm).tm_year = (bcd_value (regs.year % 256) : Int) + 100 := by
  rw [read_time_fields_year]
  have hle := bcd2bin_le regs.year
  have he : bcd2bin regs.year = bcd_value (regs.year % 256) := by
    rw [bcd2bin_eq]; unfold bcd_value; omega
  rw [Nat.mod_eq_of_lt (by omega), to_int_of_lt (by omega), he]
  push_cast
  rfl

/-! ## Round trip of the single fields -/

theorem rtc_time_ext {a b : rtc_time} (h1 : a.tm_sec = b.tm_sec) (h2 : a.tm_min = b.tm_min)
    (h3 : a.tm_hour = b.tm_hour) (h4 : a.tm_mday = b.tm_mday) (h5 : a.tm_mon = b.tm_mon)
    (h6 : a.tm_year = b.tm_year) (h7 : a.tm_wday = b.tm_wday) (h8 : a.tm_yday = b.tm_yday)
    (h9 : a.tm_isdst = b.tm_isdst) : a = b := by
  cases a
  cases b
  simp only [rtc_time.mk.injEq]
  exact ⟨h1, h2, h3, h4, h5, h6, h7, h8, h9⟩

theorem round_trip_masked {n : Nat} (h : n < 60) :
    to_int (bcd2bin (bin2bcd n &&& 0x7f)) = (n : Int) := by
  rw [bin2bcd_of_lt_100 (by omega), and_0x7f, to_int_bcd2bin (by omega)]
  unfold bcd_value
  omega

theorem round_trip_plain {n : Nat} (h : n < 100) :
    to_int (bcd2bin (bin2bcd n)) = (n : Int) := by
  rw [bcd2bin_bin2bcd h, to_int_of_lt (by omega)]

theorem round_trip_one_based {n : Nat} (h : n < 99) :
    to_int ((bcd2bin (bin2bcd (n + 1)) + 4294967295) % 4294967296) = (n : Int) := by
  rw [bcd2bin_bin2bcd (by omega)]
  have e : (n + 1 + 4294967295) % 4294967296 = n := by omega
  rw [e, to_int_of_lt (by omega)]

theorem round_trip_year {n : Nat} (h : n < 100) :
    to_int ((bcd2bin (bin2bcd n) + 100) % 4294967296) = (n : Int) + 100 := by
  rw [bcd2bin_bin2bcd h, Nat.mod_eq_of_lt (by omega), to_int_of_lt (by omega)]
  push_cast
  rfl

theorem round_trip_hour {n : Nat} (h : n < 20) :
    (bin2bcd n ||| HT1382_HOUR_1224) &&& HT1382_HOUR_1224 ≠ 0 ∧
    (bin2bcd n ||| HT1382_HOUR_1224) &&& HT1382_HOUR_AMPM = 0 ∧
    (bin2bcd n ||| HT1382_HOUR_1224) &&& 0x1f = 16 * (n / 10) + n % 10 ∧
    to_int (bcd2bin ((bin2bcd n ||| HT1382_HOUR_1224) &&& 0x1f)) = (n : Int) := by
  interval_cases n <;> decide

theorem set_time_regs_fields (t : rtc_time) :
    (set_time_regs t).second = bin2bcd (to_u32 t.tm_sec) ∧
    (set_time_regs t).minute = bin2bcd (to_u32 t.tm_min) ∧
    (set_time_regs t).hour = bin2bcd (to_u32 t.tm_hour) ||| HT1382_HOUR_1224 ∧
    (set_time_regs t).date = bin2bcd (to_u32 t.tm_mday) ∧
    (set_time_regs t).month = bin2bcd (to_u32 (t.tm_mon + 1)) ∧
    (set_time_regs t).day = bin2bcd (to_u32 (t.tm_wday + 1)) ∧
    (set_time_regs t).year = bin2bcd (to_u32 (Int.tmod t.tm_year 100)) := by
  simp only [set_time_regs, and_self]

theorem read_time_fields_set_time_regs (t tm : rtc_time)
    (hsec : 0 ≤ t.tm_sec ∧ t.tm_sec ≤ 59) (hmin : 0 ≤ t.tm_min ∧ t.tm_min ≤ 59)
    (hhour : 0 ≤ t.tm_hour ∧ t.tm_hour ≤ 19) (hmday : 1 ≤ t.tm_mday ∧ t.tm_mday ≤ 31)
    (hmon : 0 ≤ t.tm_mon ∧ t.tm_mon ≤ 11) (hyear : 100 ≤ t.tm_year ∧ t.tm_year ≤ 199)
    (hwday : 0 ≤ t.tm_wday ∧ t.tm_wday ≤ 6) :
    read_time_fields (set_time_regs t) tm =
      { t with tm_yday := tm.tm_yday, tm_isdst := tm.tm_isdst } := by
  obtain ⟨hr1, hr2, hr3, hr4, hr5, hr6, hr7⟩ := set_time_regs_fields t
  apply rtc_time_ext
  · rw [read_time_fields_sec, hr1]
    obtain ⟨n, hn⟩ := Int.eq_ofNat_of_zero_le hsec.1
    show _ = t.tm_sec
    rw [hn, to_u32_ofNat (by omega), round_trip_masked (by omega)]
  · rw [read_time_fields_min, hr2]
    obtain ⟨n, hn⟩ := Int.eq_ofNat_of_zero_le hmin.1
    show _ = t.tm_min
    rw [hn, to_u32_ofNat (by omega), round_trip_masked (by omega)]
  · rw [read_time_fields_hour, hr3]
    obtain ⟨n, hn⟩ := Int.eq_ofNat_of_zero_le hhour.1
    show _ = t.tm_hour
    rw [hn, to_u32_ofNat (by omega)]
    obtain ⟨k1, k2, -, k4⟩ := round_trip_hour (n := n) (by omega)
    rw [if_pos k1, if_neg (not_not.2 k2), k4]
  · rw [read_time_fields_mday, hr4]
    obtain ⟨n, hn⟩ := Int.eq_ofNat_of_zero_le (le_trans (by decide) hmday.1)
    show _ = t.tm_mday
    rw [hn, to_u32_ofNat (by omega), round_trip_plain (by omega)]
  · rw [read_time_fields_mon, hr5]
    obtain ⟨n, hn⟩ := Int.eq_ofNat_of_zero_le hmon.1
    show _ = t.tm_mon
    have e : t.tm_mon + 1 = ((n + 1 : Nat) : Int) := by rw [hn]; push_cast; rfl
    rw [e, to_u32_ofNat (by omega), round_trip_one_based (by omega), hn]
  · rw [read_time_fields_year, hr7]
    show _ = t.tm_year
    obtain ⟨n, hn⟩ := Int.eq_ofNat_of_zero_le (le_trans (by decide) hyear.1)
    have e : Int.tmod t.tm_year 100 = ((n - 100 : Nat) : Int) := by
      rw [Int.tmod_eq_emod (by omega) (by decide)]
      omega
    rw [e, to_u32_ofNat (by omega), round_trip_year (by omega)]
    omega
  · rw [read_time_fields_wday, hr6]
    obtain ⟨n, hn⟩ := Int.eq_ofNat_of_zero_le hwday.1
    show _ = t.tm_wday
    have e : t.tm_wday + 1 = ((n + 1 : Nat) : Int) := by rw [hn]; push_cast; rfl
    rw [e, to_u32_ofNat (by omega), round_trip_one_based (by omega), hn]
  · simp only [read_time_fields]
  · simp only [read_time_fields]

theorem calendar_month_days_le (mon year : Int) : calendar_month_days mon year ≤ 31 := by
  unfold calendar_month_days
  split
  · split <;> decide
  · split <;> decide

theorem rtc_valid_tm_of_valid (t : rtc_time)
    (hsec : 0 ≤ t.tm_sec ∧ t.tm_sec ≤ 59) (hmin : 0 ≤ t.tm_min ∧ t.tm_min ≤ 59)
    (hhour : 0 ≤ t.tm_hour ∧ t.tm_hour ≤ 23)
    (hmday : 1 ≤ t.tm_mday ∧ t.tm_mday ≤ calendar_month_days t.tm_mon (t.tm_year + 1900))
    (hmon : 0 ≤ t.tm_mon ∧ t.tm_mon ≤ 11) (hyear : 100 ≤ t.tm_year ∧ t.tm_year ≤ 199) :
    rtc_valid_tm t = 0 := by
  rw [rtc_valid_tm_eq_zero_iff]
  obtain ⟨m, hm⟩ := Int.eq_ofNat_of_zero_le hmon.1
  obtain ⟨y, hy⟩ := Int.eq_ofNat_of_zero_le (le_trans (by decide) hyear.1)
  have hum : to_u32 t.tm_mon = m := by rw [hm, to_u32_ofNat (by omega)]
  have huy : (to_u32 t.tm_year + 1900) % 4294967296 = y + 1900 := by
    rw [hy, to_u32_ofNat (by omega)]
    omega
  have hdays : rtc_month_days (to_u32 t.tm_mon) ((to_u32 t.tm_year + 1900) % 4294967296) =
      calendar_month_days t.tm_mon (t.tm_year + 1900) := by
    rw [hum, huy, rtc_month_days_eq_calendar (by omega), hm, hy]
    push_cast
    rfl
  rw [hdays, hum]
  unfold INT_MAX to_u32
  omega

/-! ## C1: round trip through the register block -/

/-- C1 (the code at the failing input): the valid time 20:00:00 on 1 January 2000 is
encoded by `ht1382_rtc_set_time` with hour byte `0xA0`; decoding that block succeeds but
yields hour 12, so the round trip does not return the time that was written. The same
happens for every hour from 20 to 23, which decode to 12 to 15. -/
theorem round_trip_breaks_at_hour_20 (tm : rtc_time) :
    (set_time_regs evening_time).hour = 0xA0 ∧
    read_time_decode (set_time_regs evening_time) tm =
      (0, { evening_time with
        tm_hour := 12, tm_yday := tm.tm_yday, tm_isdst := tm.tm_isdst }) ∧
    (read_time_decode (set_time_regs { evening_time with tm_hour := 21 }) tm).2.tm_hour = 13 ∧
    (read_time_decode (set_time_regs { evening_time with tm_hour := 22 }) tm).2.tm_hour = 14 ∧
    (read_time_decode (set_time_regs { evening_time with tm_hour := 23 }) tm).2.tm_hour = 15 := by
  have h20 : read_time_decode (set_time_regs evening_time) zero_time =
      (0, { evening_time with tm_hour := 12 }) := by decide
  have h21 : read_time_decode (set_time_regs { evening_time with tm_hour := 21 }) zero_time =
      (0, { evening_time with tm_hour := 13 }) := by decide
  have h22 : read_time_decode (set_time_regs { evening_time with tm_hour := 22 }) zero_time =
      (0, { evening_time with tm_hour := 14 }) := by decide
  have h23 : read_time_decode (set_time_regs { evening_time with tm_hour := 23 }) zero_time =
      (0, { evening_time with tm_hour := 15 }) := by decide
  refine ⟨by decide, ?_, ?_, ?_, ?_⟩
  · rw [read_time_decode_frame _ tm zero_time, h20]
  · rw [read_time_decode_frame _ tm zero_time, h21]
  · rw [read_time_decode_frame _ tm zero_time, h22]
  · rw [read_time_decode_frame _ tm zero_time, h23]

/-! ## C2: the write sequence stops at the first failed write -/

/-- C2: for every time value and every bus, the trace of `ht1382_rtc_set_time` is a run
of successful writes followed by one last write, and the return value is `0` when that
last write succeeded and `-EIO` (the error of `ht1382_write`) when it failed: nothing is
issued after a failed write. If the write of `0x00` to offset `0x07` fails, it is the only
transaction. If the 7-byte write to offset 0 fails, the call returns `-EIO`, only the two
writes were issued, and no write of `0x80` to offset `0x07` is among them. -/
theorem set_time_stops_at_first_failed_write {σ : Type} (bus : i2c_bus σ) (s : σ)
    (tm : rtc_time) :
    (∃ pre last,
      (ht1382_rtc_set_time (recording bus) (s, []) tm).2.2 = pre ++ [last] ∧
      (∀ e ∈ pre, send_ok e = true) ∧
      (ht1382_rtc_set_time bus s tm).1 = if send_ok last = true then 0 else - EIO) ∧
    ((bus.master_send s [0x07, 0x00]).1 ≠ 2 →
      (ht1382_rtc_set_time bus s tm).1 = - EIO ∧
      (ht1382_rtc_set_time (recording bus) (s, []) tm).2.2 =
        [bus_event.send [0x07, 0x00] (bus.master_send s [0x07, 0x00]).1]) ∧
    ((bus.master_send s [0x07, 0x00]).1 = 2 →
      (bus.master_send (bus.master_send s [0x07, 0x00]).2
        (0x00 :: regs_bytes (set_time_regs tm))).1 ≠ 8 →
      (ht1382_rtc_set_time bus s tm).1 = - EIO ∧
      sent_buffers (ht1382_rtc_set_time (recording bus) (s, []) tm).2.2 =
        [[0x07, 0x00], 0x00 :: regs_bytes (set_time_regs tm)] ∧
      [0x07, 0x80] ∉ sent_buffers (ht1382_rtc_set_time (recording bus) (s, []) tm).2.2) := by
  have hfst := (set_time_recording_fst bus s [] tm).1
  by_cases h1 : (bus.master_send s [0x07, 0x00]).1 = 2
  · by_cases h2 : (bus.master_send (bus.master_send s [0x07, 0x00]).2
        (0x00 :: regs_bytes (set_time_regs tm))).1 = 8
    · have hrec := set_time_recording_pass2 bus s [] tm h1 h2
      rw [hrec] at hfst
      refine ⟨⟨[bus_event.send [0x07, 0x00] 2,
          bus_event.send (0x00 :: regs_bytes (set_time_regs tm)) 8],
          bus_event.send [0x07, 0x80]
            (bus.master_send (bus.master_send (bus.master_send s [0x07, 0x00]).2
              (0x00 :: regs_bytes (set_time_regs tm))).2 [0x07, 0x80]).1, ?_, ?_, ?_⟩,
        fun h => absurd h1 h, fun _ h => absurd h2 h⟩
      · rw [hrec]; rfl
      · intro e he
        simp only [List.mem_cons, List.mem_singleton, List.not_mem_nil, or_false] at he
        rcases he with rfl | rfl <;> rfl
      · rw [← hfst]
        simp [send_ok]
    · have hrec := set_time_recording_fail2 bus s [] tm h1 h2
      rw [hrec] at hfst
      refine ⟨⟨[bus_event.send [0x07, 0x00] 2],
          bus_event.send (0x00 :: regs_bytes (set_time_regs tm))
            (bus.master_send (bus.master_send s [0x07, 0x00]).2
              (0x00 :: regs_bytes (set_time_regs tm))).1, ?_, ?_, ?_⟩, fun h => absurd h1 h,
        fun _ _ => ⟨hfst.symm, ?_, ?_⟩⟩
      · rw [hrec]; rfl
      · intro e he
        simp only [List.mem_singleton] at he
        subst he; rfl
      · rw [← hfst]
        have hl : (regs_bytes (set_time_regs tm)).length = 7 := rfl
        simp [send_ok, hl, h2]
      · rw [hrec]; rfl
      · rw [hrec]
        simp [sent_buffers]
  · have hrec := set_time_recording_fail1 bus s [] tm h1
    rw [hrec] at hfst
    refine ⟨⟨[], bus_event.send [0x07, 0x00] (bus.master_send s [0x07, 0x00]).1, ?_, ?_, ?_⟩,
      fun _ => ⟨hfst.symm, ?_⟩, fun h => absurd h h1⟩
    · rw [hrec]
    · intro e he
      cases he
    · rw [← hfst]
      simp [send_ok, h1]
    · rw [hrec]; rfl

/-- Witness for C2: a bus on which every write fails, and a bus whose first write
succeeds and whose later writes fail. -/
theorem set_time_stops_at_first_failed_write_witness :
    ((ht1382_rtc_set_time (failing_from 0) 0 sample_time).1 = - EIO ∧
      (ht1382_rtc_set_time (recording (failing_from 0)) (0, []) sample_time).2.2 =
        [bus_event.send [0x07, 0x00] ((failing_from 0).master_send 0 [0x07, 0x00]).1]) ∧
    ((failing_from 1).master_send 0 [0x07, 0x00]).1 = 2 ∧
    ((failing_from 1).master_send ((failing_from 1).master_send 0 [0x07, 0x00]).2
      (0x00 :: regs_bytes (set_time_regs sample_time))).1 ≠ 8 ∧
    (ht1382_rtc_set_time (failing_from 1) 0 sample_time).1 = - EIO ∧
    sent_buffers (ht1382_rtc_set_time (recording (failing_from 1)) (0, []) sample_time).2.2 =
      [[0x07, 0x00], 0x00 :: regs_bytes (set_time_regs sample_time)] ∧
    [0x07, 0x80] ∉
      sent_buffers (ht1382_rtc_set_time (recording (failing_from 1)) (0, []) sample_time).2.2 :=
  ⟨(set_time_stops_at_first_failed_write (failing_from 0) 0 sample_time).2.1 (by decide),
    by decide, by decide,
    (set_time_stops_at_first_failed_write (failing_from 1) 0 sample_time).2.2
      (by decide) (by decide)⟩

/-! ## C3: the write sequence on success -/

/-- C3: for every time value and every bus, if the three writes succeed then
`ht1382_rtc_set_time` returns `0` and issues exactly three transactions, in this order:
the byte `0x00` to offset `0x07`, the seven encoded bytes (second, minute, hour, date,
month, day, year) to offset `0x00`, the byte `0x80` to offset `0x07`. On any bus, it
returns `0` if and only if it issued three writes and all of them succeeded. -/
theorem set_time_write_sequence {σ : Type} (bus : i2c_bus σ) (s : σ) (tm : rtc_time) :
    ((bus.master_send s [0x07, 0x00]).1 = 2 →
      (bus.master_send (bus.master_send s [0x07, 0x00]).2
        (0x00 :: regs_bytes (set_time_regs tm))).1 = 8 →
      (bus.master_send (bus.master_send (bus.master_send s [0x07, 0x00]).2
        (0x00 :: regs_bytes (set_time_regs tm))).2 [0x07, 0x80]).1 = 2 →
      (ht1382_rtc_set_time bus s tm).1 = 0 ∧
      (ht1382_rtc_set_time (recording bus) (s, []) tm).2.2 =
        [bus_event.send [0x07, 0x00] 2,
          bus_event.send [0x00, (set_time_regs tm).second, (set_time_regs tm).minute,
            (set_time_regs tm).hour, (set_time_regs tm).date, (set_time_regs tm).month,
            (set_time_regs tm).day, (set_time_regs tm).year] 8,
          bus_event.send [0x07, 0x80] 2]) ∧
    ((ht1382_rtc_set_time bus s tm).1 = 0 ↔
      (ht1382_rtc_set_time (recording bus) (s, []) tm).2.2.length = 3 ∧
      ∀ e ∈ (ht1382_rtc_set_time (recording bus) (s, []) tm).2.2, send_ok e = true) := by
  have hfst := (set_time_recording_fst bus s [] tm).1
  have hE : (- EIO : Int) ≠ 0 := by decide
  by_cases h1 : (bus.master_send s [0x07, 0x00]).1 = 2
  · by_cases h2 : (bus.master_send (bus.master_send s [0x07, 0x00]).2
        (0x00 :: regs_bytes (set_time_regs tm))).1 = 8
    · have hrec := set_time_recording_pass2 bus s [] tm h1 h2
      rw [hrec] at hfst
      have hl : (regs_bytes (set_time_regs tm)).length = 7 := rfl
      refine ⟨fun _ _ h3 => ⟨?_, ?_⟩, ?_⟩
      · rw [← hfst]; simp [h3]
      · rw [hrec, h3]; rfl
      · rw [← hfst, hrec]
        by_cases h3 : (bus.master_send (bus.master_send (bus.master_send s [0x07, 0x00]).2
            (0x00 :: regs_bytes (set_time_regs tm))).2 [0x07, 0x80]).1 = 2
        · simp [h3, send_ok, hl]
        · simp [h3, send_ok, hl, hE]
    · have hrec := set_time_recording_fail2 bus s [] tm h1 h2
      rw [hrec] at hfst
      refine ⟨fun _ h => absurd h h2, ?_⟩
      rw [← hfst, hrec]
      simp [hE]
  · have hrec := set_time_recording_fail1 bus s [] tm h1
    rw [hrec] at hfst
    refine ⟨fun h => absurd h h1, ?_⟩
    rw [← hfst, hrec]
    simp [hE]

/-- Witness for C3 on the mock register store. -/
theorem set_time_write_sequence_witness :
    (ht1382_rtc_set_time mock_bus [0, 0, 0, 0, 0, 0, 0, 0] sample_time).1 = 0 ∧
    (ht1382_rtc_set_time (recording mock_bus) ([0, 0, 0, 0, 0, 0, 0, 0], []) sample_time).2.2 =
      [bus_event.send [0x07, 0x00] 2,
        bus_event.send [0x00, 0x00, 0x30, 0x94, 0x15, 0x06, 0x04, 0x23] 8,
        bus_event.send [0x07, 0x80] 2] :=
  (set_time_write_sequence mock_bus [0, 0, 0, 0, 0, 0, 0, 0] sample_time).1
    (by decide) (by decide) (by decide)


/-! ## C4: bytes that are not well-formed BCD -/

/-- C4 (counterexample): a byte `0x9A` in the second, minute, hour, day or year field does
not make the decode fail. With the other six bytes well-formed, the decode succeeds and the
byte is converted arithmetically: second and minute `0x9A` give 20, hour `0x9A` gives 20,
day `0x9A` gives weekday 99, year `0x9A` gives year 200. -/
theorem invalid_bcd_accepted :
    read_time_decode
        { second := 0x9A, minute := 0x00, hour := 0x00, date := 0x01,
          month := 0x01, day := 0x01, year := 0x00 } zero_time =
      (0, { zero_time with tm_sec := 20, tm_mday := 1, tm_year := 100 }) ∧
    read_time_decode
        { second := 0x00, minute := 0x9A, hour := 0x00, date := 0x01,
          month := 0x01, day := 0x01, year := 0x00 } zero_time =
      (0, { zero_time with tm_min := 20, tm_mday := 1, tm_year := 100 }) ∧
    read_time_decode
        { second := 0x00, minute := 0x00, hour := 0x9A, date := 0x01,
          month := 0x01, day := 0x01, year := 0x00 } zero_time =
      (0, { zero_time with tm_hour := 20, tm_mday := 1, tm_year := 100 }) ∧
    read_time_decode
        { second := 0x00, minute := 0x00, hour := 0x00, date := 0x01,
          month := 0x01, day := 0x9A, year := 0x00 } zero_time =
      (0, { zero_time with tm_wday := 99, tm_mday := 1, tm_year := 100 }) ∧
    read_time_decode
        { second := 0x00, minute := 0x00, hour := 0x00, date := 0x01,
          month := 0x01, day := 0x01, year := 0x9A } zero_time =
      (0, { zero_time with tm_mday := 1, tm_year := 200 }) := by
  decide

/-- C4 (amended): a register block whose date byte or month byte is `0x9A` is rejected
with `-EINVAL`, whatever the other six bytes and the caller's buffer are. -/
theorem invalid_bcd_date_month_rejected (regs : ht1382_regs) (tm : rtc_time)
    (h : regs.date = 0x9A ∨ regs.month = 0x9A) :
    (read_time_decode regs tm).1 = -EINVAL := by
  apply read_time_decode_ne_zero_of
  rcases h with h | h
  · apply rtc_valid_tm_ne_zero_of_mday
    rw [read_time_fields_mday, h]
    decide
  · apply rtc_valid_tm_ne_zero_of_mon
    · rw [read_time_fields_mon, h, (by decide : bcd2bin 0x9A = 100)]
      norm_num [to_int]
    · rw [read_time_fields_mon, h, (by decide : bcd2bin 0x9A = 100)]
      norm_num [to_int]

/-- Witness for the amended C4: date byte `0x9A` among otherwise well-formed bytes. -/
theorem invalid_bcd_date_month_rejected_witness :
    (read_time_decode
        { second := 0x00, minute := 0x00, hour := 0x00, date := 0x9A,
          month := 0x01, day := 0x01, year := 0x00 } zero_time).1 = -EINVAL :=
  invalid_bcd_date_month_rejected _ _ (Or.inl rfl)


/-! ## C5: dates that do not exist -/

/-- C5: a register block with date byte `0x31` and month byte `0x02` (31 February) is
rejected with `-EINVAL`, whatever the other bytes and the caller's buffer are, both by the
decoding step and by `ht1382_rtc_read_time` on any bus whose read delivers such a block.
More generally, whenever the decode succeeds the decoded month is in 0-11 and the decoded
day-of-month is at least 1 and at most the number of days of that month in the decoded
year (`tm_year + 1900`). -/
theorem invalid_calendar_rejected (regs : ht1382_regs) (tm : rtc_time) :
    (regs.date = 0x31 → regs.month = 0x02 → (read_time_decode regs tm).1 = -EINVAL) ∧
    (∀ {σ : Type} (bus : i2c_bus σ) (s : σ), (bus.transfer_read s 0 7).1 = 2 →
      regs_of_bytes (bus.transfer_read s 0 7).2.1 = regs →
      regs.date = 0x31 → regs.month = 0x02 → (ht1382_rtc_read_time bus s tm).1 = -EINVAL) ∧
    ((read_time_decode regs tm).1 = 0 →
      0 ≤ (read_time_decode regs tm).2.tm_mon ∧ (read_time_decode regs tm).2.tm_mon ≤ 11 ∧
      1 ≤ (read_time_decode regs tm).2.tm_mday ∧
      (read_time_decode regs tm).2.tm_mday ≤
        calendar_month_days (read_time_decode regs tm).2.tm_mon
          ((read_time_decode regs tm).2.tm_year + 1900)) := by
  have hfeb : regs.date = 0x31 → regs.month = 0x02 →
      (read_time_decode regs tm).1 = -EINVAL := by
    intro hd hm
    apply read_time_decode_ne_zero_of
    intro h0
    rw [rtc_valid_tm_eq_zero_iff] at h0
    apply h0
    right; right; right; right; left
    rw [read_time_fields_mday, read_time_fields_mon, read_time_fields_year, hd, hm,
      (by decide : bcd2bin 0x31 = 31), (by decide : bcd2bin 0x02 = 2)]
    have hmon : to_u32 (to_int ((2 + 4294967295) % 4294967296)) = 1 := by
      norm_num [to_int, to_u32]
    rw [hmon, rtc_month_days_eq_calendar (by decide)]
    have h31 : to_int 31 = 31 := by norm_num [to_int]
    rw [h31]
    unfold calendar_month_days
    simp only [Nat.cast_one, if_true]
    split <;> decide
  refine ⟨hfeb, ?_, ?_⟩
  · intro σ bus s hok hregs hd hm
    rw [ht1382_rtc_read_time_of_transfer bus s tm hok, hregs]
    exact hfeb hd hm
  · intro hz
    have hv : rtc_valid_tm (read_time_fields regs tm) = 0 := by
      by_contra hne
      rw [read_time_decode_ne_zero_of hne] at hz
      exact absurd hz (by decide)
    rw [read_time_decode_snd]
    rw [rtc_valid_tm_eq_zero_iff] at hv
    simp only [not_or, not_lt, ge_iff_le, gt_iff_lt, not_le] at hv
    obtain ⟨hy70, -, hmon, hmd1, hmd, -⟩ := hv
    have hyear : (read_time_fields regs tm).tm_year = ((bcd2bin regs.year + 100 : Nat) : Int) := by
      rw [read_time_fields_year]
      have := bcd2bin_le regs.year
      rw [Nat.mod_eq_of_lt (by omega), to_int_of_lt (by omega)]
    have hmonle := bcd2bin_le regs.month
    have hmon2 : (read_time_fields regs tm).tm_mon = (bcd2bin regs.month : Int) - 1 := by
      rw [read_time_fields_mon]
      unfold to_int
      split <;> omega
    have hmon3 : 1 ≤ bcd2bin regs.month ∧ bcd2bin regs.month ≤ 12 := by
      rw [hmon2] at hmon
      unfold to_u32 at hmon
      omega
    have hu : to_u32 (read_time_fields regs tm).tm_mon = bcd2bin regs.month - 1 := by
      rw [hmon2]; unfold to_u32; omega
    have hy : (to_u32 (read_time_fields regs tm).tm_year + 1900) % 4294967296 =
        bcd2bin regs.year + 2000 := by
      rw [hyear]; unfold to_u32
      have := bcd2bin_le regs.year
      omega
    rw [hu, hy, rtc_month_days_eq_calendar (by omega)] at hmd
    have e1 : ((bcd2bin regs.month - 1 : Nat) : Int) = (read_time_fields regs tm).tm_mon := by
      rw [hmon2]; omega
    have e2 : ((bcd2bin regs.year + 2000 : Nat) : Int) =
        (read_time_fields regs tm).tm_year + 1900 := by
      rw [hyear]; push_cast; ring
    rw [e1, e2] at hmd
    refine ⟨?_, ?_, hmd1, hmd⟩ <;> rw [hmon2] <;> omega

/-- Witness for C5: 31 February 2000 is rejected, directly and through a register store
holding it; the block for 29 February 2000 decodes, within the calendar bound. -/
theorem invalid_calendar_rejected_witness :
    (read_time_decode
        { second := 0x00, minute := 0x00, hour := 0x00, date := 0x31,
          month := 0x02, day := 0x01, year := 0x00 } zero_time).1 = -EINVAL ∧
    (ht1382_rtc_read_time mock_bus [0x00, 0x00, 0x00, 0x31, 0x02, 0x01, 0x00, 0x80]
        zero_time).1 = -EINVAL ∧
    (0 ≤ (read_time_decode
        { second := 0x00, minute := 0x00, hour := 0x00, date := 0x29,
          month := 0x02, day := 0x01, year := 0x00 } zero_time).2.tm_mon ∧
      (read_time_decode
        { second := 0x00, minute := 0x00, hour := 0x00, date := 0x29,
          month := 0x02, day := 0x01, year := 0x00 } zero_time).2.tm_mon ≤ 11 ∧
      1 ≤ (read_time_decode
        { second := 0x00, minute := 0x00, hour := 0x00, date := 0x29,
          month := 0x02, day := 0x01, year := 0x00 } zero_time).2.tm_mday ∧
      (read_time_decode
        { second := 0x00, minute := 0x00, hour := 0x00, date := 0x29,
          month := 0x02, day := 0x01, year := 0x00 } zero_time).2.tm_mday ≤
        calendar_month_days
          (read_time_decode
            { second := 0x00, minute := 0x00, hour := 0x00, date := 0x29,
              month := 0x02, day := 0x01, year := 0x00 } zero_time).2.tm_mon
          ((read_time_decode
            { second := 0x00, minute := 0x00, hour := 0x00, date := 0x29,
              month := 0x02, day := 0x01, year := 0x00 } zero_time).2.tm_year + 1900)) :=
  ⟨(invalid_calendar_rejected _ zero_time).1 rfl rfl,
    (invalid_calendar_rejected _ zero_time).2.1 mock_bus
      [0x00, 0x00, 0x00, 0x31, 0x02, 0x01, 0x00, 0x80] (by decide) rfl rfl rfl,
    (invalid_calendar_rejected _ zero_time).2.2 (by decide)⟩

/-! ## C6: end to end on the mock register store -/

/-- C6: on the mock register store with any initial contents of its 8 bytes,
`ht1382_rtc_set_time` with 14:30:00, 15 June 2023, weekday 3 returns `0` and leaves the
registers `00 30 94 15 06 04 23` with status byte `0x80` at offset `0x07`; the following
`ht1382_rtc_read_time` returns `0` with all seven fields equal to the input (the two
fields the driver never touches keep the caller's values) and leaves the store as it is. -/
theorem end_to_end_on_mock (a b c d e f g h : Nat) (tm : rtc_time) :
    ht1382_rtc_set_time mock_bus [a, b, c, d, e, f, g, h] sample_time =
      (0, [0x00, 0x30, 0x94, 0x15, 0x06, 0x04, 0x23, 0x80]) ∧
    ht1382_rtc_read_time mock_bus
        (ht1382_rtc_set_time mock_bus [a, b, c, d, e, f, g, h] sample_time).2 tm =
      (0, { sample_time with tm_yday := tm.tm_yday, tm_isdst := tm.tm_isdst },
        [0x00, 0x30, 0x94, 0x15, 0x06, 0x04, 0x23, 0x80]) ∧
    (ht1382_rtc_set_time mock_bus [a, b, c, d, e, f, g, h] sample_time).2.getD 0x07 0 = 0x80 ∧
    (ht1382_rtc_read_time mock_bus
        (ht1382_rtc_set_time mock_bus [a, b, c, d, e, f, g, h] sample_time).2 tm).2.2.getD
      0x07 0 = 0x80 := by
  have hset : ht1382_rtc_set_time mock_bus [a, b, c, d, e, f, g, h] sample_time =
      (0, [0x00, 0x30, 0x94, 0x15, 0x06, 0x04, 0x23, 0x80]) := by
    have hr : regs_bytes (set_time_regs sample_time) =
        [0x00, 0x30, 0x94, 0x15, 0x06, 0x04, 0x23] := by decide
    simp [ht1382_rtc_set_time, ht1382_write, mock_bus, store_at, hr, HT1382_ST1]
  have hdec : read_time_decode
      (regs_of_bytes [0x00, 0x30, 0x94, 0x15, 0x06, 0x04, 0x23]) zero_time =
      (0, sample_time) := by decide
  have hread : ht1382_rtc_read_time mock_bus [0x00, 0x30, 0x94, 0x15, 0x06, 0x04, 0x23, 0x80]
      tm = (0, { sample_time with tm_yday := tm.tm_yday, tm_isdst := tm.tm_isdst },
        [0x00, 0x30, 0x94, 0x15, 0x06, 0x04, 0x23, 0x80]) := by
    rw [ht1382_rtc_read_time_of_transfer _ _ _ (by decide)]
    have hb : (mock_bus.transfer_read [0x00, 0x30, 0x94, 0x15, 0x06, 0x04, 0x23, 0x80] 0 7) =
        (2, [0x00, 0x30, 0x94, 0x15, 0x06, 0x04, 0x23],
          [0x00, 0x30, 0x94, 0x15, 0x06, 0x04, 0x23, 0x80]) := by decide
    rw [hb]
    simp only []
    rw [read_time_decode_frame _ tm zero_time, hdec]
  rw [hset]
  refine ⟨rfl, hread, rfl, ?_⟩
  simp only []
  rw [hread]
  rfl


/-! ## C7: hour decoding -/

/-- C7: for every hour byte, the hour computed by the field conversion of
`ht1382_rtc_read_time` is `hour_of_byte`: with bit 7 set, the BCD value of `h & 0x1f`, plus
12 when bit 5 is set, with no special case for 12 o'clock; with bit 7 clear, the BCD value
of `h & 0x3f`. Hour byte `0x89` gives hour 9 and hour byte `0xA9` gives hour 21; the
12-hour bytes for 12 AM (`0x92`) and 12 PM (`0xB2`) give 12 and 24. -/
theorem hour_decoding (regs : ht1382_regs) (tm : rtc_time) :
    (read_time_fields regs tm).tm_hour = hour_of_byte regs.hour ∧
    (read_time_fields { regs with hour := 0x89 } tm).tm_hour = 9 ∧
    (read_time_fields { regs with hour := 0xA9 } tm).tm_hour = 21 ∧
    (read_time_fields { regs with hour := 0x92 } tm).tm_hour = 12 ∧
    (read_time_fields { regs with hour := 0xB2 } tm).tm_hour = 24 := by
  have key : ∀ r : ht1382_regs, (read_time_fields r tm).tm_hour = hour_of_byte r.hour := by
    intro r
    rw [read_time_fields_hour]
    unfold hour_of_byte HT1382_HOUR_1224 HT1382_HOUR_AMPM
    have h5 : r.hour &&& 0x1f < 256 := by rw [and_0x1f]; omega
    have h6 : r.hour &&& 0x3f < 256 := by rw [and_0x3f]; omega
    rw [to_int_bcd2bin h5, to_int_bcd2bin h6]
    by_cases b7 : r.hour.testBit 7 = true
    · by_cases b5 : r.hour.testBit 5 = true
      · simp [(and_0x80_ne_zero_iff r.hour).2 b7, (and_0x20_ne_zero_iff r.hour).2 b5, b7, b5]
      · have n5 : ¬ (r.hour &&& 0x20 ≠ 0) := fun hc => b5 ((and_0x20_ne_zero_iff r.hour).1 hc)
        simp only [ne_eq, not_not] at n5
        simp [(and_0x80_ne_zero_iff r.hour).2 b7, n5, b7, b5]
    · have n7 : ¬ (r.hour &&& 0x80 ≠ 0) := fun hc => b7 ((and_0x80_ne_zero_iff r.hour).1 hc)
      simp only [ne_eq, not_not] at n7
      simp [n7, b7]
  refine ⟨key regs, ?_, ?_, ?_, ?_⟩
  · rw [key]
    show hour_of_byte 0x89 = 9
    decide
  · rw [key]
    show hour_of_byte 0xA9 = 21
    decide
  · rw [key]
    show hour_of_byte 0x92 = 12
    decide
  · rw [key]
    show hour_of_byte 0xB2 = 24
    decide

/-! ## C8: hour encoding -/

/-- C8 (counterexample): for the valid time 20:00:00 the hour byte written is `0xA0`, in
which the AM/PM flag (bit 5, `0x20`) is set: it carries the BCD tens digit 2. -/
theorem hour_encoding_sets_ampm_bit_at_20 :
    evening_time.tm_hour = 20 ∧
    (set_time_regs evening_time).hour = 0xA0 ∧
    (set_time_regs evening_time).hour &&& HT1382_HOUR_AMPM = 0x20 := by
  decide

/-- C8 (amended): for every hour value in 0-23 the hour byte written by
`ht1382_rtc_set_time` has the 12/24 flag (bit 7) set and its low seven bits are the
two-digit BCD packing `16 * (hour / 10) + hour % 10` of the raw hour; the AM/PM flag
(bit 5) is clear exactly for the hours 0-19. -/
theorem hour_encoding (tm : rtc_time) (h : Nat) (hh : h < 24) (htm : tm.tm_hour = (h : Int)) :
    (set_time_regs tm).hour &&& HT1382_HOUR_1224 = 0x80 ∧
    (set_time_regs tm).hour &&& 0x7f = 16 * (h / 10) + h % 10 ∧
    ((set_time_regs tm).hour &&& HT1382_HOUR_AMPM = 0 ↔ h < 20) := by
  have e : (set_time_regs tm).hour = bin2bcd h ||| 0x80 := by
    simp only [set_time_regs, HT1382_HOUR_1224, htm]
    rw [to_u32_ofNat (by omega)]
  rw [e]
  unfold HT1382_HOUR_1224 HT1382_HOUR_AMPM
  interval_cases h <;> decide

/-- Witness for the amended C8 at 14:30:00. -/
theorem hour_encoding_witness :
    (set_time_regs sample_time).hour &&& HT1382_HOUR_1224 = 0x80 ∧
    (set_time_regs sample_time).hour &&& 0x7f = 16 * (14 / 10) + 14 % 10 ∧
    ((set_time_regs sample_time).hour &&& HT1382_HOUR_AMPM = 0 ↔ 14 < 20) :=
  hour_encoding sample_time 14 (by decide) rfl

/-! ## C9: the oscillator-stop bit is masked -/

/-- C9: the seconds value decoded by `ht1382_rtc_read_time` is the BCD value of
`b & 0x7f`; two blocks that differ only in second bytes with the same `b & 0x7f` decode to
the same result (error code and time); in particular the block with second byte `b` and
the block with second byte `b | 0x80` decode alike, and second byte `0xB0` gives 30. -/
theorem oscillator_stop_masked (regs : ht1382_regs) (tm : rtc_time) (b : Nat) :
    (read_time_fields { regs with second := b } tm).tm_sec = (bcd_value (b &&& 0x7f) : Int) ∧
    (∀ c : Nat, b &&& 0x7f = c &&& 0x7f →
      read_time_decode { regs with second := b } tm =
        read_time_decode { regs with second := c } tm) ∧
    read_time_decode { regs with second := b ||| 0x80 } tm =
      read_time_decode { regs with second := b } tm ∧
    (read_time_fields { regs with second := 0xB0 } tm).tm_sec = 30 := by
  have hsec : ∀ x : Nat, (read_time_fields { regs with second := x } tm).tm_sec =
      (bcd_value (x &&& 0x7f) : Int) := by
    intro x
    rw [read_time_fields_sec]
    exact to_int_bcd2bin (by rw [and_0x7f]; omega)
  refine ⟨hsec b, fun c h => read_time_decode_second_congr regs tm b c h,
    read_time_decode_second_congr regs tm _ _ (or_0x80_and_0x7f b), ?_⟩
  rw [hsec]
  decide

/-- Witness for C9: second bytes `0x30` and `0xB0` in the block of 14:30:30. -/
theorem oscillator_stop_masked_witness :
    read_time_decode { set_time_regs sample_time with second := 0x30 } zero_time =
      read_time_decode { set_time_regs sample_time with second := 0xB0 } zero_time :=
  (oscillator_stop_masked (set_time_regs sample_time) zero_time 0x30).2.1 0xB0 (by decide)

/-! ## C10: BCD packing of the seconds -/

/-- C10: for every seconds value `s` in 0-59 the second byte written by
`ht1382_rtc_set_time` is `16 * (s / 10) + s % 10`, and a register block whose second byte
has that form, with no flag bit set, decodes to second `s`. For `s = 59` the byte is
`0x59`, and byte `0x59` decodes to 59. -/
theorem seconds_bcd_boundary (tm : rtc_time) (s : Nat) (hs : s < 60) (htm : tm.tm_sec = (s : Int)) :
    (set_time_regs tm).second = 16 * (s / 10) + s % 10 ∧
    (∀ (regs : ht1382_regs) (tm1 : rtc_time), regs.second = 16 * (s / 10) + s % 10 →
      (read_time_fields regs tm1).tm_sec = (s : Int)) ∧
    (set_time_regs { tm with tm_sec := 59 }).second = 0x59 ∧
    (read_time_fields { set_time_regs tm with second := 0x59 } tm).tm_sec = 59 := by
  have henc : ∀ t : rtc_time, ∀ n : Nat, n < 60 → t.tm_sec = (n : Int) →
      (set_time_regs t).second = 16 * (n / 10) + n % 10 := by
    intro t n hn ht
    simp only [set_time_regs, ht]
    rw [to_u32_ofNat (by omega), bin2bcd_of_lt_100 (by omega)]
    omega
  have hdec : ∀ (regs : ht1382_regs) (tm1 : rtc_time) (n : Nat), n < 60 →
      regs.second = 16 * (n / 10) + n % 10 → (read_time_fields regs tm1).tm_sec = (n : Int) := by
    intro regs tm1 n hn hr
    rw [read_time_fields_sec, hr, and_0x7f, to_int_bcd2bin (by omega)]
    unfold bcd_value
    omega
  refine ⟨henc tm s hs htm, fun regs tm1 hr => hdec regs tm1 s hs hr, ?_, ?_⟩
  · exact henc _ 59 (by decide) rfl
  · exact hdec _ _ 59 (by decide) rfl

/-- Witness for C10 at `s = 59`. -/
theorem seconds_bcd_boundary_witness :
    (set_time_regs { sample_time with tm_sec := 59 }).second = 16 * (59 / 10) + 59 % 10 ∧
    (read_time_fields
        { second := 0x59, minute := 0x00, hour := 0x00, date := 0x01,
          month := 0x01, day := 0x01, year := 0x00 } zero_time).tm_sec = 59 :=
  ⟨(seconds_bcd_boundary { sample_time with tm_sec := 59 } 59 (by decide) rfl).1,
    (seconds_bcd_boundary { sample_time with tm_sec := 59 } 59 (by decide) rfl).2.1 _ _ rfl⟩


/-! ## C11: oscillator restart at attach -/

/-- C11: in `ht1382_probe` (adapter functionality present), on every bus: when the 1-byte
read at offset 0 succeeds with value `r` and bit 7 of `r` is set, the traffic is that read
followed by exactly one write, of the single byte `r & 0x7f` to offset 0; that byte is `r`
with the stop flag removed (`r - 128`, seven low bits unchanged). When the read succeeds
with bit 7 clear, or the read fails, the read is the only transaction and no write is
issued. -/
theorem probe_oscillator_restart {σ : Type} (bus : i2c_bus σ) (s : σ) (rtc : Option Int) :
    ((bus.transfer_read s 0 1).1 = 2 →
      ((bus.transfer_read s 0 1).2.1.getD 0 0 % 256).testBit 7 = true →
      sent_buffers (ht1382_probe (recording bus) (s, []) true rtc).state.2 =
        [[0x00, ((bus.transfer_read s 0 1).2.1.getD 0 0 % 256) &&& 0x7f]] ∧
      (ht1382_probe (recording bus) (s, []) true rtc).state.2.length = 2 ∧
      ((bus.transfer_read s 0 1).2.1.getD 0 0 % 256) &&& 0x7f =
        (bus.transfer_read s 0 1).2.1.getD 0 0 % 256 - 128 ∧
      (((bus.transfer_read s 0 1).2.1.getD 0 0 % 256) &&& 0x7f).testBit 7 = false) ∧
    ((bus.transfer_read s 0 1).1 = 2 →
      ((bus.transfer_read s 0 1).2.1.getD 0 0 % 256).testBit 7 = false →
      (ht1382_probe (recording bus) (s, []) true rtc).state.2 = [bus_event.read 0 1 2] ∧
      sent_buffers (ht1382_probe (recording bus) (s, []) true rtc).state.2 = []) ∧
    ((bus.transfer_read s 0 1).1 ≠ 2 →
      (ht1382_probe (recording bus) (s, []) true rtc).state.2 =
        [bus_event.read 0 1 (bus.transfer_read s 0 1).1] ∧
      sent_buffers (ht1382_probe (recording bus) (s, []) true rtc).state.2 = []) := by
  refine ⟨fun h hb => ?_, fun h hb => ?_, fun h => ?_⟩
  · have hb7 : ((bus.transfer_read s 0 1).2.1.getD 0 0 % 256) &&& HT1382_STOP ≠ 0 :=
      (and_0x80_ne_zero_iff _).2 hb
    rw [probe_recording_halted bus s [] rtc h hb7]
    have hlt : (bus.transfer_read s 0 1).2.1.getD 0 0 % 256 < 256 := Nat.mod_lt _ (by decide)
    generalize (bus.transfer_read s 0 1).2.1.getD 0 0 % 256 = b at hb hlt ⊢
    have hge : 128 ≤ b := by
      rw [Nat.testBit_to_div_mod] at hb
      simp only [Nat.reducePow, decide_eq_true_eq] at hb
      omega
    refine ⟨?_, ?_, ?_, ?_⟩
    · split <;> rfl
    · split <;> rfl
    · rw [and_0x7f]; omega
    · rw [and_0x7f, Nat.testBit_to_div_mod]
      simp only [Nat.reducePow, decide_eq_false_iff_not]
      omega
  · have hb7 : ((bus.transfer_read s 0 1).2.1.getD 0 0 % 256) &&& HT1382_STOP = 0 :=
      (and_stop_eq_zero_iff _).2 hb
    rw [probe_recording_running bus s [] rtc h hb7]
    exact ⟨rfl, rfl⟩
  · rw [probe_recording_read_failed bus s [] rtc h]
    exact ⟨rfl, rfl⟩

/-- Witness for C11: a register store whose seconds register holds `0xB0` (halted, 30 s),
one holding `0x30`, and a bus whose reads fail. -/
theorem probe_oscillator_restart_witness :
    (sent_buffers (ht1382_probe (recording mock_bus)
        ([0xB0, 0, 0, 1, 1, 1, 0, 0x80], []) true none).state.2 =
        [[0x00, ((mock_bus.transfer_read [0xB0, 0, 0, 1, 1, 1, 0, 0x80] 0 1).2.1.getD 0 0 % 256)
          &&& 0x7f]] ∧
      (ht1382_probe (recording mock_bus)
        ([0xB0, 0, 0, 1, 1, 1, 0, 0x80], []) true none).state.2.length = 2 ∧
      ((mock_bus.transfer_read [0xB0, 0, 0, 1, 1, 1, 0, 0x80] 0 1).2.1.getD 0 0 % 256) &&& 0x7f =
        (mock_bus.transfer_read [0xB0, 0, 0, 1, 1, 1, 0, 0x80] 0 1).2.1.getD 0 0 % 256 - 128 ∧
      (((mock_bus.transfer_read [0xB0, 0, 0, 1, 1, 1, 0, 0x80] 0 1).2.1.getD 0 0 % 256)
        &&& 0x7f).testBit 7 = false) ∧
    ((ht1382_probe (recording mock_bus)
        ([0x30, 0, 0, 1, 1, 1, 0, 0x80], []) true none).state.2 = [bus_event.read 0 1 2] ∧
      sent_buffers (ht1382_probe (recording mock_bus)
        ([0x30, 0, 0, 1, 1, 1, 0, 0x80], []) true none).state.2 = []) ∧
    ((ht1382_probe (recording (scripted_bus (- EIO) 0x80 2)) (0, []) true none).state.2 =
        [bus_event.read 0 1 ((scripted_bus (- EIO) 0x80 2).transfer_read 0 0 1).1] ∧
      sent_buffers
        (ht1382_probe (recording (scripted_bus (- EIO) 0x80 2)) (0, []) true none).state.2 = []) :=
  ⟨(probe_oscillator_restart mock_bus [0xB0, 0, 0, 1, 1, 1, 0, 0x80] none).1
      (by decide) (by decide),
    (probe_oscillator_restart mock_bus [0x30, 0, 0, 1, 1, 1, 0, 0x80] none).2.1
      (by decide) (by decide),
    (probe_oscillator_restart (scripted_bus (- EIO) 0x80 2) 0 none).2.2 (by decide)⟩

/-! ## C12: outcome of the attach handshake -/

/-- C12: in `ht1382_probe` (adapter functionality present), on every bus, registration is
reached if and only if the initial 1-byte read succeeds and either bit 7 of the byte read
is clear or the corrective write succeeds. If the initial read fails, or the byte has bit 7
set and the corrective write fails, probe returns `-EIO` and registration is not reached.
When registration is reached, the return value is the outcome of the registration. -/
theorem probe_outcome {σ : Type} (bus : i2c_bus σ) (s : σ) (rtc : Option Int) :
    ((ht1382_probe bus s true rtc).registered = true ↔
      (bus.transfer_read s 0 1).1 = 2 ∧
        (((bus.transfer_read s 0 1).2.1.getD 0 0 % 256).testBit 7 = false ∨
          (bus.master_send (bus.transfer_read s 0 1).2.2
            [0x00, ((bus.transfer_read s 0 1).2.1.getD 0 0 % 256) &&& 0x7f]).1 = 2)) ∧
    ((bus.transfer_read s 0 1).1 ≠ 2 →
      (ht1382_probe bus s true rtc).ret = - EIO ∧
      (ht1382_probe bus s true rtc).registered = false) ∧
    ((bus.transfer_read s 0 1).1 = 2 →
      ((bus.transfer_read s 0 1).2.1.getD 0 0 % 256).testBit 7 = true →
      (bus.master_send (bus.transfer_read s 0 1).2.2
        [0x00, ((bus.transfer_read s 0 1).2.1.getD 0 0 % 256) &&& 0x7f]).1 ≠ 2 →
      (ht1382_probe bus s true rtc).ret = - EIO ∧
      (ht1382_probe bus s true rtc).registered = false) ∧
    ((ht1382_probe bus s true rtc).registered = true →
      (ht1382_probe bus s true rtc).ret = rtc.getD 0) := by
  by_cases h : (bus.transfer_read s 0 1).1 = 2
  · by_cases hb : ((bus.transfer_read s 0 1).2.1.getD 0 0 % 256).testBit 7 = true
    · have hb7 : ((bus.transfer_read s 0 1).2.1.getD 0 0 % 256) &&& HT1382_STOP ≠ 0 :=
        (and_0x80_ne_zero_iff _).2 hb
      rw [probe_halted bus s rtc h hb7]
      generalize (bus.transfer_read s 0 1).2.1.getD 0 0 % 256 = b at hb ⊢
      by_cases hw : (bus.master_send (bus.transfer_read s 0 1).2.2 [0x00, b &&& 0x7f]).1 = 2
      · simp [h, hb, hw]
      · simp [h, hb, hw]
    · have hb' : ((bus.transfer_read s 0 1).2.1.getD 0 0 % 256).testBit 7 = false := by
        simpa using hb
      have hb7 : ((bus.transfer_read s 0 1).2.1.getD 0 0 % 256) &&& HT1382_STOP = 0 :=
        (and_stop_eq_zero_iff _).2 hb'
      rw [probe_running bus s rtc h hb7]
      generalize (bus.transfer_read s 0 1).2.1.getD 0 0 % 256 = b at hb' ⊢
      simp [h, hb']
  · rw [probe_read_failed bus s rtc h]
    simp [h]

/-- Witness for C12: a bus whose reads fail, and a bus that reports a halted oscillator
and rejects the corrective write. -/
theorem probe_outcome_witness :
    ((ht1382_probe (scripted_bus (- EIO) 0x80 2) 0 true none).ret = - EIO ∧
      (ht1382_probe (scripted_bus (- EIO) 0x80 2) 0 true none).registered = false) ∧
    ((ht1382_probe (scripted_bus 2 0x80 (- EIO)) 0 true none).ret = - EIO ∧
      (ht1382_probe (scripted_bus 2 0x80 (- EIO)) 0 true none).registered = false) ∧
    (ht1382_probe mock_bus [0xB0, 0, 0, 1, 1, 1, 0, 0x80] true none).ret = 0 :=
  ⟨(probe_outcome (scripted_bus (- EIO) 0x80 2) 0 none).2.1 (by decide),
    (probe_outcome (scripted_bus 2 0x80 (- EIO)) 0 none).2.2.1 (by decide) (by decide)
      (by decide),
    (probe_outcome mock_bus [0xB0, 0, 0, 1, 1, 1, 0, 0x80] none).2.2.2 (by decide)⟩


/-! ## C13: transport handling of the time read -/

/-- C13: on every bus, `ht1382_rtc_read_time` issues exactly one transaction, the read of
7 bytes at offset 0, and no write. If that read fails, the call returns the error of
`ht1382_read` unchanged, which is `-EIO` and not `-EINVAL`, and the caller's buffer is not
touched (nothing is decoded). If the read succeeds, the return value and the contents of
the caller's buffer are exactly the decode of the 7 bytes read. -/
theorem read_time_transport {σ : Type} (bus : i2c_bus σ) (s : σ) (tm : rtc_time) :
    (ht1382_rtc_read_time (recording bus) (s, []) tm).2.2.2 =
      [bus_event.read 0 7 (bus.transfer_read s 0 7).1] ∧
    sent_buffers (ht1382_rtc_read_time (recording bus) (s, []) tm).2.2.2 = [] ∧
    ((bus.transfer_read s 0 7).1 ≠ 2 →
      (ht1382_rtc_read_time bus s tm).1 = (ht1382_read bus s 0 7).1 ∧
      (ht1382_rtc_read_time bus s tm).1 = - EIO ∧
      (ht1382_rtc_read_time bus s tm).1 ≠ -EINVAL ∧
      (ht1382_rtc_read_time bus s tm).2.1 = tm) ∧
    ((bus.transfer_read s 0 7).1 = 2 →
      ((ht1382_rtc_read_time bus s tm).1, (ht1382_rtc_read_time bus s tm).2.1) =
        read_time_decode (regs_of_bytes (bus.transfer_read s 0 7).2.1) tm) := by
  refine ⟨ht1382_rtc_read_time_recording bus s [] tm, ?_, fun h => ?_, fun h => ?_⟩
  · rw [ht1382_rtc_read_time_recording]; rfl
  · rw [ht1382_rtc_read_time_of_failure bus s tm h, ht1382_read_eq]
    simp only [Nat.zero_mod, Nat.reduceMod, h, if_false]
    exact ⟨trivial, trivial, by decide, trivial⟩
  · rw [ht1382_rtc_read_time_of_transfer bus s tm h]

/-- Witness for C13: a bus whose reads fail, and the mock register store. -/
theorem read_time_transport_witness :
    ((ht1382_rtc_read_time (scripted_bus (- EIO) 0 2) 0 sample_time).1 =
        (ht1382_read (scripted_bus (- EIO) 0 2) 0 0 7).1 ∧
      (ht1382_rtc_read_time (scripted_bus (- EIO) 0 2) 0 sample_time).1 = - EIO ∧
      (ht1382_rtc_read_time (scripted_bus (- EIO) 0 2) 0 sample_time).1 ≠ -EINVAL ∧
      (ht1382_rtc_read_time (scripted_bus (- EIO) 0 2) 0 sample_time).2.1 = sample_time) ∧
    ((ht1382_rtc_read_time mock_bus [0x00, 0x30, 0x94, 0x15, 0x06, 0x04, 0x23, 0x80]
          zero_time).1,
        (ht1382_rtc_read_time mock_bus [0x00, 0x30, 0x94, 0x15, 0x06, 0x04, 0x23, 0x80]
          zero_time).2.1) =
      read_time_decode
        (regs_of_bytes
          (mock_bus.transfer_read [0x00, 0x30, 0x94, 0x15, 0x06, 0x04, 0x23, 0x80] 0 7).2.1)
        zero_time :=
  ⟨(read_time_transport (scripted_bus (- EIO) 0 2) 0 sample_time).2.2.1 (by decide),
    (read_time_transport mock_bus [0x00, 0x30, 0x94, 0x15, 0x06, 0x04, 0x23, 0x80]
      zero_time).2.2.2 (by decide)⟩

/-! ## C14: the weekday is not validated -/

/-- C14 (counterexample): with the other six bytes a valid time (00:00:00 on 1 January
2000), day byte `0x00` decodes successfully with weekday -1, and day byte `0x08` decodes
successfully with weekday 7. -/
theorem weekday_out_of_range_accepted :
    read_time_decode
        { second := 0x00, minute := 0x00, hour := 0x00, date := 0x01,
          month := 0x01, day := 0x00, year := 0x00 } zero_time =
      (0, { zero_time with tm_mday := 1, tm_year := 100, tm_wday := -1 }) ∧
    read_time_decode
        { second := 0x00, minute := 0x00, hour := 0x00, date := 0x01,
          month := 0x01, day := 0x08, year := 0x00 } zero_time =
      (0, { zero_time with tm_mday := 1, tm_year := 100, tm_wday := 7 }) := by
  decide

/-- C14 (amended): the decoded weekday is the BCD value of the day byte minus 1 and is
not validated: the return value of the decode is the same whatever the day byte is. For a
day byte in 1-7 the decoded weekday is in 0-6. -/
theorem weekday_not_validated (regs : ht1382_regs) (tm : rtc_time) (d : Nat) :
    (read_time_decode { regs with day := d } tm).1 = (read_time_decode regs tm).1 ∧
    (read_time_fields regs tm).tm_wday = (bcd_value (regs.day % 256) : Int) - 1 ∧
    (1 ≤ regs.day → regs.day ≤ 7 →
      0 ≤ (read_time_fields regs tm).tm_wday ∧ (read_time_fields regs tm).tm_wday ≤ 6) := by
  refine ⟨?_, read_time_fields_wday_eq regs tm, fun h1 h7 => ?_⟩
  · rw [read_time_decode_fst, read_time_decode_fst]
    have e : rtc_valid_tm (read_time_fields { regs with day := d } tm) =
        rtc_valid_tm (read_time_fields regs tm) := by
      apply rtc_valid_tm_congr <;> simp only [read_time_fields]
    rw [e]
  · rw [read_time_fields_wday_eq]
    unfold bcd_value
    omega

/-- Witness for the amended C14: day byte `0x04` in the block of 14:30:00, 15 June 2023. -/
theorem weekday_not_validated_witness :
    0 ≤ (read_time_fields (set_time_regs sample_time) zero_time).tm_wday ∧
    (read_time_fields (set_time_regs sample_time) zero_time).tm_wday ≤ 6 :=
  (weekday_not_validated (set_time_regs sample_time) zero_time 0).2.2 (by decide) (by decide)


/-! ## C15: what the caller sees when the read is rejected -/

/-- C15 (counterexample): on the mock register store holding 31 February 2000,
`ht1382_rtc_read_time` returns `-EINVAL` and the caller's buffer, all zero before the
call, holds the decoded fields of the rejected block afterwards. -/
theorem rejected_block_is_visible :
    (ht1382_rtc_read_time mock_bus [0x00, 0x00, 0x00, 0x31, 0x02, 0x01, 0x00, 0x80]
      zero_time).1 = -EINVAL ∧
    (ht1382_rtc_read_time mock_bus [0x00, 0x00, 0x00, 0x31, 0x02, 0x01, 0x00, 0x80]
      zero_time).2.1 = { zero_time with tm_mday := 31, tm_mon := 1, tm_year := 100 } ∧
    (ht1382_rtc_read_time mock_bus [0x00, 0x00, 0x00, 0x31, 0x02, 0x01, 0x00, 0x80]
      zero_time).2.1 ≠ zero_time := by
  decide

/-- C15 (amended): when `ht1382_rtc_read_time` fails on the transport (the bus read
fails), it returns `-EIO` and the caller's time value is exactly what it was before the
call. When the bus read succeeds, the seven converted fields of the block are stored in
the caller's time value whatever the return value is, so after `-EINVAL` the caller's
value holds the fields of the rejected block; `tm_yday` and `tm_isdst` are never
modified. -/
theorem no_partial_decode_on_transport_failure {σ : Type} (bus : i2c_bus σ) (s : σ)
    (tm : rtc_time) :
    ((bus.transfer_read s 0 7).1 ≠ 2 →
      (ht1382_rtc_read_time bus s tm).1 = - EIO ∧ (ht1382_rtc_read_time bus s tm).2.1 = tm) ∧
    ((bus.transfer_read s 0 7).1 = 2 →
      (ht1382_rtc_read_time bus s tm).2.1 =
        read_time_fields (regs_of_bytes (bus.transfer_read s 0 7).2.1) tm) ∧
    (ht1382_rtc_read_time bus s tm).2.1.tm_yday = tm.tm_yday ∧
    (ht1382_rtc_read_time bus s tm).2.1.tm_isdst = tm.tm_isdst := by
  by_cases h : (bus.transfer_read s 0 7).1 = 2
  · rw [ht1382_rtc_read_time_of_transfer bus s tm h]
    simp only [read_time_decode_snd]
    refine ⟨fun hn => absurd h hn, fun _ => trivial, ?_, ?_⟩ <;> simp only [read_time_fields]
  · rw [ht1382_rtc_read_time_of_failure bus s tm h]
    exact ⟨fun _ => ⟨rfl, rfl⟩, fun hn => absurd hn h, rfl, rfl⟩

/-- Witness for the amended C15: a bus whose reads fail, and the mock register store
holding 31 February 2000. -/
theorem no_partial_decode_on_transport_failure_witness :
    ((ht1382_rtc_read_time (scripted_bus (- EIO) 0 2) 0 sample_time).1 = - EIO ∧
      (ht1382_rtc_read_time (scripted_bus (- EIO) 0 2) 0 sample_time).2.1 = sample_time) ∧
    (ht1382_rtc_read_time mock_bus [0x00, 0x00, 0x00, 0x31, 0x02, 0x01, 0x00, 0x80]
        zero_time).2.1 =
      read_time_fields
        (regs_of_bytes
          (mock_bus.transfer_read [0x00, 0x00, 0x00, 0x31, 0x02, 0x01, 0x00, 0x80] 0 7).2.1)
        zero_time :=
  ⟨(no_partial_decode_on_transport_failure (scripted_bus (- EIO) 0 2) 0 sample_time).1
      (by decide),
    (no_partial_decode_on_transport_failure mock_bus
      [0x00, 0x00, 0x00, 0x31, 0x02, 0x01, 0x00, 0x80] zero_time).2.1 (by decide)⟩

/-! ## C16: the supplied time is not validated -/

/-- C16 (counterexample): on the mock register store, where every write succeeds,
`ht1382_rtc_set_time` returns `0` for a time with hour 25 and for 31 February 2023,
although `rtc_valid_tm` rejects both. -/
theorem invalid_time_is_written :
    rtc_valid_tm { sample_time with tm_hour := 25 } = -EINVAL ∧
    (ht1382_rtc_set_time mock_bus [0, 0, 0, 0, 0, 0, 0, 0]
      { sample_time with tm_hour := 25 }).1 = 0 ∧
    rtc_valid_tm { sample_time with tm_mon := 1, tm_mday := 31 } = -EINVAL ∧
    (ht1382_rtc_set_time mock_bus [0, 0, 0, 0, 0, 0, 0, 0]
      { sample_time with tm_mon := 1, tm_mday := 31 }).1 = 0 := by
  decide

/-- C16 (amended): `ht1382_rtc_set_time` does not examine the supplied time. On every bus
and for every time value its return value is `0` or `-EIO`, never `-EINVAL`, and it is
`0` whenever the three writes succeed, whether or not the time is a valid calendar time. -/
theorem set_time_does_not_validate {σ : Type} (bus : i2c_bus σ) (s : σ) (tm : rtc_time) :
    ((ht1382_rtc_set_time bus s tm).1 = 0 ∨ (ht1382_rtc_set_time bus s tm).1 = - EIO) ∧
    (ht1382_rtc_set_time bus s tm).1 ≠ -EINVAL ∧
    ((bus.master_send s [0x07, 0x00]).1 = 2 →
      (bus.master_send (bus.master_send s [0x07, 0x00]).2
        (0x00 :: regs_bytes (set_time_regs tm))).1 = 8 →
      (bus.master_send (bus.master_send (bus.master_send s [0x07, 0x00]).2
        (0x00 :: regs_bytes (set_time_regs tm))).2 [0x07, 0x80]).1 = 2 →
      (ht1382_rtc_set_time bus s tm).1 = 0) := by
  have hcases : (ht1382_rtc_set_time bus s tm).1 = 0 ∨
      (ht1382_rtc_set_time bus s tm).1 = - EIO := by
    simp only [ht1382_rtc_set_time]
    split
    · exact ht1382_write_fst_cases _ _ _ _ _
    · split
      · exact ht1382_write_fst_cases _ _ _ _ _
      · exact ht1382_write_fst_cases _ _ _ _ _
  refine ⟨hcases, ?_, fun h1 h2 h3 => ?_⟩
  · rcases hcases with h | h <;> rw [h] <;> decide
  · have hrec := set_time_recording_pass2 bus s [] tm h1 h2
    have hfst := (set_time_recording_fst bus s [] tm).1
    rw [hrec] at hfst
    rw [← hfst]
    simp [h3]

/-- Witness for the amended C16: hour 25 on the mock register store. -/
theorem set_time_does_not_validate_witness :
    (ht1382_rtc_set_time mock_bus [0, 0, 0, 0, 0, 0, 0, 0]
      { sample_time with tm_hour := 25 }).1 = 0 :=
  (set_time_does_not_validate mock_bus [0, 0, 0, 0, 0, 0, 0, 0]
    { sample_time with tm_hour := 25 }).2.2 (by decide) (by decide) (by decide)


/-! ## C17: the encoder leaves the oscillator-stop bit clear -/

/-- C17: for every time value with seconds in 0-59, the second byte built by
`ht1382_rtc_set_time` has bit 7 (`HT1382_STOP`, `0x80`) clear: it is below 128, and it is
the first payload byte of the register block handed to the bus. -/
theorem encode_leaves_stop_bit_clear (tm : rtc_time) (s : Nat) (hs : s < 60)
    (htm : tm.tm_sec = (s : Int)) :
    (set_time_regs tm).second &&& HT1382_STOP = 0 ∧
    (set_time_regs tm).second.testBit 7 = false ∧
    (set_time_regs tm).second < 128 ∧
    (regs_bytes (set_time_regs tm)).head? = some ((set_time_regs tm).second) := by
  have e : (set_time_regs tm).second = s / 10 * 16 + s % 10 := by
    simp only [set_time_regs, htm]
    rw [to_u32_ofNat (by omega), bin2bcd_of_lt_100 (by omega)]
  have hlt : (set_time_regs tm).second < 128 := by rw [e]; omega
  have h7 : (set_time_regs tm).second.testBit 7 = false := by
    rw [Nat.testBit_to_div_mod]
    simp only [Nat.reducePow, decide_eq_false_iff_not]
    omega
  exact ⟨(and_stop_eq_zero_iff _).2 h7, h7, hlt, rfl⟩

/-- Witness for C17 at 59 seconds. -/
theorem encode_leaves_stop_bit_clear_witness :
    (set_time_regs { sample_time with tm_sec := 59 }).second &&& HT1382_STOP = 0 ∧
    (set_time_regs { sample_time with tm_sec := 59 }).second.testBit 7 = false ∧
    (set_time_regs { sample_time with tm_sec := 59 }).second < 128 ∧
    (regs_bytes (set_time_regs { sample_time with tm_sec := 59 })).head? =
      some ((set_time_regs { sample_time with tm_sec := 59 }).second) :=
  encode_leaves_stop_bit_clear { sample_time with tm_sec := 59 } 59 (by decide) rfl

/-! ## C18: range of the decoded year -/

/-- C18 (counterexample): with the other six bytes a valid time, year byte `0x9A` decodes
successfully to year 200 (the year 2100), and year byte `0xFF` decodes successfully to
year 265. -/
theorem year_beyond_199_accepted :
    read_time_decode
        { second := 0x00, minute := 0x00, hour := 0x00, date := 0x01,
          month := 0x01, day := 0x01, year := 0x9A } zero_time =
      (0, { zero_time with tm_mday := 1, tm_year := 200 }) ∧
    read_time_decode
        { second := 0x00, minute := 0x00, hour := 0x00, date := 0x01,
          month := 0x01, day := 0x01, year := 0xFF } zero_time =
      (0, { zero_time with tm_mday := 1, tm_year := 265 }) := by
  decide

/-- C18 (amended): for every register block, the year left by the decode, whether it
succeeds or not, is the BCD value of the year byte plus 100 and lies in 100-265; it lies
in 100-199 whenever both nibbles of the year byte are decimal digits. -/
theorem decoded_year_range (regs : ht1382_regs) (tm : rtc_time) :
    (read_time_decode regs tm).2.tm_year = (bcd_value (regs.year % 256) : Int) + 100 ∧
    100 ≤ (read_time_decode regs tm).2.tm_year ∧
    (read_time_decode regs tm).2.tm_year ≤ 265 ∧
    (regs.year % 16 ≤ 9 → regs.year / 16 ≤ 9 →
      (read_time_decode regs tm).2.tm_year ≤ 199) := by
  rw [read_time_decode_snd, read_time_fields_year_eq]
  unfold bcd_value
  refine ⟨rfl, ?_, ?_, fun h1 h2 => ?_⟩ <;> omega

/-- Witness for the amended C18: year byte `0x23` in the block of 14:30:00, 15 June 2023. -/
theorem decoded_year_range_witness :
    (read_time_decode (set_time_regs sample_time) zero_time).2.tm_year ≤ 199 :=
  (decoded_year_range (set_time_regs sample_time) zero_time).2.2.2 (by decide) (by decide)

/-! ## C19: round trip for the hours 0-19 -/

/-- C19: for every valid time `t` with hour in 0-19 (seconds and minutes 0-59, month
0-11, year 100-199, day-of-month between 1 and the number of days of the month and year,
weekday 0-6), decoding the register block that `ht1382_rtc_set_time` builds from `t`
succeeds and returns `t` in each of the seven fields (the two fields the driver never
touches keep the caller's values). In the hour byte built from `t` bit 5 is clear, and
its low five bits are the BCD packing of the hour, so the AM/PM test and the `0x1f` mask
of the decoder lose nothing. -/
theorem restricted_round_trip (t tm : rtc_time)
    (hsec : 0 ≤ t.tm_sec ∧ t.tm_sec ≤ 59) (hmin : 0 ≤ t.tm_min ∧ t.tm_min ≤ 59)
    (hhour : 0 ≤ t.tm_hour ∧ t.tm_hour ≤ 19)
    (hmday : 1 ≤ t.tm_mday ∧ t.tm_mday ≤ calendar_month_days t.tm_mon (t.tm_year + 1900))
    (hmon : 0 ≤ t.tm_mon ∧ t.tm_mon ≤ 11) (hyear : 100 ≤ t.tm_year ∧ t.tm_year ≤ 199)
    (hwday : 0 ≤ t.tm_wday ∧ t.tm_wday ≤ 6) :
    read_time_decode (set_time_regs t) tm =
      (0, { t with tm_yday := tm.tm_yday, tm_isdst := tm.tm_isdst }) ∧
    (set_time_regs t).hour &&& HT1382_HOUR_AMPM = 0 ∧
    (set_time_regs t).hour &&& 0x1f =
      16 * (t.tm_hour.toNat / 10) + t.tm_hour.toNat % 10 := by
  have hmday31 : 1 ≤ t.tm_mday ∧ t.tm_mday ≤ 31 :=
    ⟨hmday.1, le_trans hmday.2 (calendar_month_days_le _ _)⟩
  have hfields := read_time_fields_set_time_regs t tm hsec hmin hhour hmday31 hmon hyear hwday
  have hvalid : rtc_valid_tm (read_time_fields (set_time_regs t) tm) = 0 := by
    rw [hfields]
    have e : rtc_valid_tm { t with tm_yday := tm.tm_yday, tm_isdst := tm.tm_isdst } =
        rtc_valid_tm t := rtc_valid_tm_congr rfl rfl rfl rfl rfl rfl
    rw [e]
    exact rtc_valid_tm_of_valid t hsec hmin ⟨hhour.1, by omega⟩ hmday hmon hyear
  obtain ⟨n, hn⟩ := Int.eq_ofNat_of_zero_le hhour.1
  have hbyte : (set_time_regs t).hour = bin2bcd n ||| HT1382_HOUR_1224 := by
    rw [(set_time_regs_fields t).2.2.1, hn, to_u32_ofNat (by omega)]
  obtain ⟨-, k2, k3, -⟩ := round_trip_hour (n := n) (by omega)
  refine ⟨?_, ?_, ?_⟩
  · simp only [read_time_decode, hvalid, ne_eq, not_true_eq_false, if_false]
    rw [hfields]
  · rw [hbyte]
    exact k2
  · rw [hbyte, k3, hn]
    rfl

/-- Witness for C19: 14:30:00 on 15 June 2023, weekday 3. -/
theorem restricted_round_trip_witness :
    read_time_decode (set_time_regs sample_time) zero_time =
      (0, { sample_time with tm_yday := zero_time.tm_yday, tm_isdst := zero_time.tm_isdst }) ∧
    (set_time_regs sample_time).hour &&& HT1382_HOUR_AMPM = 0 ∧
    (set_time_regs sample_time).hour &&& 0x1f =
      16 * (sample_time.tm_hour.toNat / 10) + sample_time.tm_hour.toNat % 10 :=
  restricted_round_trip sample_time zero_time (by decide) (by decide) (by decide) (by decide)
    (by decide) (by decide) (by decide)

/-! ## C20: the payload-size guard of the write primitive -/

/-- C20: for every call of `ht1382_write`, with `off` and `len` converted to `uint8_t`,
the guard condition `(len + 1) >= 64 * 1024` is false, so the guard never returns: on
every bus exactly one `i2c_master_send` is issued, its buffer is the offset byte followed
by the first `len` bytes of `data`, and the result is `0` exactly when the bus reports
`len + 1` bytes sent and `-EIO` otherwise. When `data` holds at least `len` bytes the
buffer has `len + 1` bytes. -/
theorem write_guard_unreachable {σ : Type} (bus : i2c_bus σ) (s : σ) (data : List Nat)
    (off len : Nat) :
    ¬ (len % 256 + 1 ≥ 64 * 1024) ∧
    (ht1382_write (recording bus) (s, []) data off len).2.2 =
      [bus_event.send ((off % 256) :: data.take (len % 256))
        (bus.master_send s ((off % 256) :: data.take (len % 256))).1] ∧
    (ht1382_write bus s data off len).1 =
      (if (bus.master_send s ((off % 256) :: data.take (len % 256))).1 =
          ((len % 256 + 1 : Nat) : Int) then 0 else - EIO) ∧
    ((ht1382_write bus s data off len).1 = 0 ↔
      (bus.master_send s ((off % 256) :: data.take (len % 256))).1 =
        ((len % 256 + 1 : Nat) : Int)) ∧
    (ht1382_write bus s data off len).2 =
      (bus.master_send s ((off % 256) :: data.take (len % 256))).2 ∧
    (len % 256 ≤ data.length →
      ((off % 256) :: data.take (len % 256)).length = len % 256 + 1) := by
  have hg : ¬ (len % 256 + 1 ≥ 64 * 1024) := by omega
  have hE : (- EIO : Int) ≠ 0 := by decide
  refine ⟨hg, ?_, ?_, ?_, ?_, fun hl => ?_⟩
  · rw [ht1382_write_recording]
    rfl
  · simp only [ht1382_write, hg, if_false]
    split <;> rfl
  · simp only [ht1382_write, hg, if_false]
    split
    · rename_i h
      exact ⟨fun _ => h, fun _ => rfl⟩
    · rename_i h
      exact ⟨fun hc => absurd hc hE, fun hc => absurd hc h⟩
  · simp only [ht1382_write, hg, if_false]
    split <;> rfl
  · simp [List.length_take, hl]

/-- Witness for C20: the 7-byte register write. -/
theorem write_guard_unreachable_witness :
    ((0 % 256) :: (regs_bytes (set_time_regs sample_time)).take (7 % 256)).length =
      7 % 256 + 1 :=
  (write_guard_unreachable mock_bus [0, 0, 0, 0, 0, 0, 0, 0]
    (regs_bytes (set_time_regs sample_time)) 0 7).2.2.2.2.2 (by decide)

end HT1382
